import Mathlib

/-!
Verification of the metricdatatest comparator core
(`sdk/metric/metricdata/metricdatatest/comparisons.go`).

The comparator functions (`diffSlices`, `compareDiff`, `equalSlices`,
`eqExtrema`, `equalKeyValue`, `equalExemplars`, `equalDataPoints`,
`equalHistogramDataPoints`, `equalExponentialHistogramDataPoints`,
`equalExponentialBuckets`, `equalGauges`, `equalSums`, `equalHistograms`,
`equalExponentialHistograms`, `equalAggregations`, `equalMetrics`,
`equalScopeMetrics`, `equalResourceMetrics`, `missingAttrStr`,
`notEqualStr`, and the `hasAttributes...` family) are translated directly
from the source file.  The data types they compare (`metricdata` entities,
`attribute` values and sets, timestamps, the ignore-policy config) live in
other packages of the repository and are modelled from the spec where so
noted.
-/

namespace Otel

/-- Modelled from the spec: IEEE-754 float64 payloads carried by the metric
tree, compared by exact bit equality (the spec mandates exact equality and
no tolerance; NaN-specific IEEE comparison behaviour is outside this
model). -/
structure Float64 where
  bits : Int
deriving DecidableEq

/-- Modelled from the spec: a timestamp is an instant; `time.Time.Equal`
is instant equality, represented as Unix nanoseconds. -/
abbrev TimeNano := Int

/-- Modelled from the spec: the ignore-policy config, three independent
boolean switches (ignore-timestamps, ignore-values, ignore-exemplars). -/
structure config where
  ignoreTimestamp : Bool
  ignoreValue : Bool
  ignoreExemplars : Bool
deriving DecidableEq

/-- Modelled from the spec: the closed attribute value union with its 8
kinds: boolean, int64, float64, string, and the four slice kinds. -/
inductive Value where
  | boolValue (b : Bool)
  | int64Value (i : Int)
  | float64Value (f : Float64)
  | stringValue (s : String)
  | boolSliceValue (l : List Bool)
  | int64SliceValue (l : List Int)
  | float64SliceValue (l : List Float64)
  | stringSliceValue (l : List String)
deriving DecidableEq

/-- Modelled from the spec: one key/value attribute. -/
structure KeyValue where
  key : String
  value : Value
deriving DecidableEq

/-- Modelled from the spec: an attribute set held in its canonical form;
set equality is value equality of the canonical form. -/
structure AttrSet where
  kvs : List KeyValue
deriving DecidableEq

/-- Modelled from the spec: key lookup in an attribute set. -/
def AttrSet.value (s : AttrSet) (k : String) : Option Value :=
  (s.kvs.find? (fun kv => kv.key == k)).map (fun kv => kv.value)

/-- Modelled from the spec: building an attribute set from a key/value
list (the canonicalization only matters for duplicate keys, which the
spec leaves unconstrained; lookup resolves to the first occurrence). -/
def AttrSet.ofList (l : List KeyValue) : AttrSet := ⟨l⟩

/-- Modelled from the spec: an optional numeric value: present/absent
flag plus value. -/
structure Extrema (ν : Type) where
  value : ν
  valid : Bool
deriving DecidableEq

/-- Modelled from the spec: `Extrema.Value()` returns the stored value
and the presence flag. -/
def Extrema.valueOk {ν : Type} (e : Extrema ν) : ν × Bool := (e.value, e.valid)

/-- Modelled from the spec: an exemplar: filtered attribute list,
observation time, value, and span/trace identifier byte sequences. -/
structure Exemplar (ν : Type) where
  filteredAttributes : List KeyValue
  time : TimeNano
  value : ν
  spanID : List Nat
  traceID : List Nat
deriving DecidableEq

/-- Modelled from the spec: a gauge/sum data point. -/
structure DataPoint (ν : Type) where
  attributes : AttrSet
  startTime : TimeNano
  time : TimeNano
  value : ν
  exemplars : List (Exemplar ν)
deriving DecidableEq

/-- Modelled from the spec: a histogram data point. -/
structure HistogramDataPoint (ν : Type) where
  attributes : AttrSet
  startTime : TimeNano
  time : TimeNano
  count : Nat
  bounds : List Float64
  bucketCounts : List Nat
  min : Extrema ν
  max : Extrema ν
  sum : ν
  exemplars : List (Exemplar ν)
deriving DecidableEq

/-- Modelled from the spec: an exponential bucket: an offset integer plus
an ordered count sequence. -/
structure ExponentialBucket where
  offset : Int
  counts : List Nat
deriving DecidableEq

/-- Modelled from the spec: an exponential histogram data point. -/
structure ExponentialHistogramDataPoint (ν : Type) where
  attributes : AttrSet
  startTime : TimeNano
  time : TimeNano
  count : Nat
  min : Extrema ν
  max : Extrema ν
  sum : ν
  scale : Int
  zeroCount : Nat
  positiveBucket : ExponentialBucket
  negativeBucket : ExponentialBucket
  exemplars : List (Exemplar ν)
deriving DecidableEq

/-- Modelled from the spec: aggregation temporality. -/
inductive Temporality where
  | cumulative
  | delta
deriving DecidableEq

/-- Modelled from the spec: a Gauge aggregation. -/
structure Gauge (ν : Type) where
  dataPoints : List (DataPoint ν)
deriving DecidableEq

/-- Modelled from the spec: a Sum aggregation with temporality and
monotonicity flags. -/
structure Sum (ν : Type) where
  dataPoints : List (DataPoint ν)
  temporality : Temporality
  isMonotonic : Bool
deriving DecidableEq

/-- Modelled from the spec: a Histogram aggregation with temporality. -/
structure Histogram (ν : Type) where
  dataPoints : List (HistogramDataPoint ν)
  temporality : Temporality
deriving DecidableEq

/-- Modelled from the spec: an ExponentialHistogram aggregation with
temporality. -/
structure ExponentialHistogram (ν : Type) where
  dataPoints : List (ExponentialHistogramDataPoint ν)
  temporality : Temporality
deriving DecidableEq

/-- Modelled from the spec: the aggregation payload union: four variants,
each over the two numeric kinds, plus `other`, which stands for a foreign
implementation of the aggregation interface outside the closed set (the
reachable-but-contractually-impossible case of the spec). -/
inductive AggData where
  | gaugeInt (g : Gauge Int)
  | gaugeFloat (g : Gauge Float64)
  | sumInt (s : Sum Int)
  | sumFloat (s : Sum Float64)
  | histInt (h : Histogram Int)
  | histFloat (h : Histogram Float64)
  | expHistInt (h : ExponentialHistogram Int)
  | expHistFloat (h : ExponentialHistogram Float64)
  | other (tag : String)
deriving DecidableEq

/-- Modelled from the spec: the dynamic type of an aggregation value as
observed by `reflect.TypeOf`: one tag per concrete variant, and the tag of
the foreign type for `other`. -/
inductive TyTag where
  | gaugeIntT
  | gaugeFloatT
  | sumIntT
  | sumFloatT
  | histIntT
  | histFloatT
  | expHistIntT
  | expHistFloatT
  | otherT (s : String)
deriving DecidableEq

/-- Modelled from the spec: `reflect.TypeOf` on an aggregation value. -/
def AggData.tyOf : AggData → TyTag
  | .gaugeInt _ => .gaugeIntT
  | .gaugeFloat _ => .gaugeFloatT
  | .sumInt _ => .sumIntT
  | .sumFloat _ => .sumFloatT
  | .histInt _ => .histIntT
  | .histFloat _ => .histFloatT
  | .expHistInt _ => .expHistIntT
  | .expHistFloat _ => .expHistFloatT
  | .other tag => .otherT tag

/-- Modelled from the spec: an aggregation payload is either absent
(`nil` interface) or one concrete aggregation value. -/
abbrev Aggregation := Option AggData

/-- Modelled from the spec: a metric: identity fields plus one
aggregation payload. -/
structure Metrics where
  name : String
  description : String
  unit : String
  data : Aggregation
deriving DecidableEq

/-- Modelled from the spec: instrumentation scope identity, a
name/version/schema triple compared by value. -/
structure Scope where
  name : String
  version : String
  schemaURL : String
deriving DecidableEq

/-- Modelled from the spec: a scope plus its metrics. -/
structure ScopeMetrics where
  scope : Scope
  metrics : List Metrics
deriving DecidableEq

/-- Modelled from the spec: a resource descriptor, compared by value
equality of its attribute set (`Resource.Equal`). -/
structure Resource where
  attrs : AttrSet
deriving DecidableEq

/-- Modelled from the spec: a resource plus its scope metrics. -/
structure ResourceMetrics where
  resource : Resource
  scopeMetrics : List ScopeMetrics
deriving DecidableEq

/-! Rendering.  The Go code interpolates compared values into its reason
strings with `fmt` verbs (`%v`, `%#v`, `%T`); the textual form is modelled
by the `GoRend` class.  The claims never constrain these rendered forms
except through `Value.emit`, which is modelled separately below. -/

/-- GoRend models the `fmt` rendering of a value into a reason string. -/
class GoRend (α : Type) where
  rend : α → String

export GoRend (rend)

instance : GoRend Bool := ⟨fun b => toString b⟩

instance : GoRend Nat := ⟨fun n => toString n⟩

instance : GoRend Int := ⟨fun i => toString i⟩

instance : GoRend String := ⟨fun s => s⟩

instance : GoRend Float64 := ⟨fun f => "float64(" ++ toString f.bits ++ ")"⟩

instance listGoRend {α : Type} [GoRend α] : GoRend (List α) :=
  ⟨fun l => "[" ++ String.intercalate " " (l.map rend) ++ "]"⟩

instance : GoRend Value :=
  ⟨fun v =>
    match v with
    | .boolValue b => rend b
    | .int64Value i => rend i
    | .float64Value f => rend f
    | .stringValue s => s
    | .boolSliceValue l => rend l
    | .int64SliceValue l => rend l
    | .float64SliceValue l => rend l
    | .stringSliceValue l => rend l⟩

instance : GoRend KeyValue := ⟨fun kv => kv.key ++ ":" ++ rend kv.value⟩

instance : GoRend AttrSet := ⟨fun s => "Set" ++ rend s.kvs⟩

/-- Modelled from the spec: `Set.Encoded(DefaultEncoder())`, the textual
encoding of an attribute set used in attribute mismatch reasons. -/
def AttrSet.encoded (s : AttrSet) : String :=
  String.intercalate "," (s.kvs.map (fun kv => kv.key ++ "=" ++ rend kv.value))

instance {ν : Type} [GoRend ν] : GoRend (Extrema ν) :=
  ⟨fun e => if e.valid then "Extrema(" ++ rend e.value ++ ")" else "Extrema()"⟩

instance {ν : Type} [GoRend ν] : GoRend (Exemplar ν) :=
  ⟨fun e => "Exemplar(" ++ rend e.filteredAttributes ++ " " ++ rend e.time ++ " "
      ++ rend e.value ++ " " ++ rend e.spanID ++ " " ++ rend e.traceID ++ ")"⟩

instance {ν : Type} [GoRend ν] : GoRend (DataPoint ν) :=
  ⟨fun d => "DataPoint(" ++ rend d.attributes ++ " " ++ rend d.startTime ++ " "
      ++ rend d.time ++ " " ++ rend d.value ++ " " ++ rend d.exemplars ++ ")"⟩

instance : GoRend ExponentialBucket :=
  ⟨fun b => "ExponentialBucket(" ++ rend b.offset ++ " " ++ rend b.counts ++ ")"⟩

instance {ν : Type} [GoRend ν] : GoRend (HistogramDataPoint ν) :=
  ⟨fun d => "HistogramDataPoint(" ++ rend d.attributes ++ " " ++ rend d.startTime ++ " "
      ++ rend d.time ++ " " ++ rend d.count ++ " " ++ rend d.bounds ++ " "
      ++ rend d.bucketCounts ++ " " ++ rend d.min ++ " " ++ rend d.max ++ " "
      ++ rend d.sum ++ " " ++ rend d.exemplars ++ ")"⟩

instance {ν : Type} [GoRend ν] : GoRend (ExponentialHistogramDataPoint ν) :=
  ⟨fun d => "ExponentialHistogramDataPoint(" ++ rend d.attributes ++ " " ++ rend d.startTime ++ " "
      ++ rend d.time ++ " " ++ rend d.count ++ " " ++ rend d.min ++ " " ++ rend d.max ++ " "
      ++ rend d.sum ++ " " ++ rend d.scale ++ " " ++ rend d.zeroCount ++ " "
      ++ rend d.positiveBucket ++ " " ++ rend d.negativeBucket ++ " " ++ rend d.exemplars ++ ")"⟩

instance : GoRend Temporality :=
  ⟨fun t => match t with | .cumulative => "CumulativeTemporality" | .delta => "DeltaTemporality"⟩

instance {ν : Type} [GoRend ν] : GoRend (Gauge ν) :=
  ⟨fun g => "Gauge(" ++ rend g.dataPoints ++ ")"⟩

instance {ν : Type} [GoRend ν] : GoRend (Sum ν) :=
  ⟨fun s => "Sum(" ++ rend s.dataPoints ++ " " ++ rend s.temporality ++ " " ++ rend s.isMonotonic ++ ")"⟩

instance {ν : Type} [GoRend ν] : GoRend (Histogram ν) :=
  ⟨fun h => "Histogram(" ++ rend h.dataPoints ++ " " ++ rend h.temporality ++ ")"⟩

instance {ν : Type} [GoRend ν] : GoRend (ExponentialHistogram ν) :=
  ⟨fun h => "ExponentialHistogram(" ++ rend h.dataPoints ++ " " ++ rend h.temporality ++ ")"⟩

instance : GoRend TyTag :=
  ⟨fun t =>
    match t with
    | .gaugeIntT => "metricdata.Gauge[int64]"
    | .gaugeFloatT => "metricdata.Gauge[float64]"
    | .sumIntT => "metricdata.Sum[int64]"
    | .sumFloatT => "metricdata.Sum[float64]"
    | .histIntT => "metricdata.Histogram[int64]"
    | .histFloatT => "metricdata.Histogram[float64]"
    | .expHistIntT => "metricdata.ExponentialHistogram[int64]"
    | .expHistFloatT => "metricdata.ExponentialHistogram[float64]"
    | .otherT s => s⟩

instance : GoRend AggData :=
  ⟨fun a =>
    match a with
    | .gaugeInt g => rend g
    | .gaugeFloat g => rend g
    | .sumInt s => rend s
    | .sumFloat s => rend s
    | .histInt h => rend h
    | .histFloat h => rend h
    | .expHistInt h => rend h
    | .expHistFloat h => rend h
    | .other tag => "other(" ++ tag ++ ")"⟩

instance : GoRend Aggregation :=
  ⟨fun a => match a with | none => "<nil>" | some v => rend v⟩

instance : GoRend Scope :=
  ⟨fun s => "Scope(" ++ s.name ++ " " ++ s.version ++ " " ++ s.schemaURL ++ ")"⟩

instance : GoRend Metrics :=
  ⟨fun m => "Metrics(" ++ m.name ++ " " ++ m.description ++ " " ++ m.unit ++ " " ++ rend m.data ++ ")"⟩

instance : GoRend ScopeMetrics :=
  ⟨fun s => "ScopeMetrics(" ++ rend s.scope ++ " " ++ rend s.metrics ++ ")"⟩

instance : GoRend Resource :=
  ⟨fun r => "Resource(" ++ rend r.attrs ++ ")"⟩

/-- Modelled from the spec: `attribute.Value.Emit`, the rendered textual
encoding of a single attribute value used by the containment checker. -/
def Value.emit (v : Value) : String := rend v

/-! The comparator core, translated from
`sdk/metric/metricdata/metricdatatest/comparisons.go`.  The Go functions
accumulate into a `reasons` slice with conditional `append`s; each
conditional append is rendered as an `if` producing `[reason]` or `[]`,
concatenated in source order. -/

/-- Translation of `notEqualStr`: the single-field mismatch message.  The
expected/actual values arrive already rendered (Go renders them with `%v`
inside `Sprintf`). -/
def notEqualStr (pfx expected actual : String) : String :=
  pfx ++ " not equal:\nexpected: " ++ expected ++ "\nactual: " ++ actual

/-- Translation of `equalSlices`: length check then element-wise loop. -/
def equalSlices {α : Type} [DecidableEq α] (a b : List α) : Bool :=
  if a.length ≠ b.length then false
  else (a.zip b).all (fun p => p.1 = p.2)

/-- Translation of `eqExtrema`: compare presence flags first; only when
both are present compare the values. -/
def eqExtrema {ν : Type} [DecidableEq ν] (a b : Extrema ν) : Bool :=
  let aP := a.valueOk
  let bP := b.valueOk
  if !aP.2 || !bP.2 then aP.2 == bP.2
  else aP.1 == bP.1

/-- Translation of `equalExtrema` (wraps `eqExtrema` into a reason). -/
def equalExtrema {ν : Type} [DecidableEq ν] [GoRend ν] (a b : Extrema ν) (_ : config) : List String :=
  if !eqExtrema a b then [notEqualStr "Extrema" (rend a) (rend b)] else []

/-- Modelled from the spec: an attribute value as seen through the open
`attribute.Value` interface, whose kind enumeration admits a value outside
the 8 known kinds (the zero `Value` has the invalid kind).  `none` stands
for such an out-of-enumeration value. -/
abbrev ValueX := Option Value

/-- Modelled from the spec: the kind tag of an open attribute value. -/
inductive VType where
  | bool
  | int64
  | float64
  | string
  | boolSlice
  | int64Slice
  | float64Slice
  | stringSlice
  | invalid
deriving DecidableEq

/-- Modelled from the spec: `attribute.Value.Type()`. -/
def ValueX.vtype : ValueX → VType
  | some (.boolValue _) => .bool
  | some (.int64Value _) => .int64
  | some (.float64Value _) => .float64
  | some (.stringValue _) => .string
  | some (.boolSliceValue _) => .boolSlice
  | some (.int64SliceValue _) => .int64Slice
  | some (.float64SliceValue _) => .float64Slice
  | some (.stringSliceValue _) => .stringSlice
  | none => .invalid

/-- Modelled from the spec: `attribute.Value.AsBool` (meaningful only
after a kind check, like the Go accessor). -/
def ValueX.asBool : ValueX → Bool
  | some (.boolValue b) => b
  | _ => false

/-- Modelled from the spec: `attribute.Value.AsInt64`. -/
def ValueX.asInt64 : ValueX → Int
  | some (.int64Value i) => i
  | _ => 0

/-- Modelled from the spec: `attribute.Value.AsFloat64`. -/
def ValueX.asFloat64 : ValueX → Float64
  | some (.float64Value f) => f
  | _ => ⟨0⟩

/-- Modelled from the spec: `attribute.Value.AsString`. -/
def ValueX.asString : ValueX → String
  | some (.stringValue s) => s
  | _ => ""

/-- Modelled from the spec: `attribute.Value.AsBoolSlice`. -/
def ValueX.asBoolSlice : ValueX → List Bool
  | some (.boolSliceValue l) => l
  | _ => []

/-- Modelled from the spec: `attribute.Value.AsInt64Slice`. -/
def ValueX.asInt64Slice : ValueX → List Int
  | some (.int64SliceValue l) => l
  | _ => []

/-- Modelled from the spec: `attribute.Value.AsFloat64Slice`. -/
def ValueX.asFloat64Slice : ValueX → List Float64
  | some (.float64SliceValue l) => l
  | _ => []

/-- Modelled from the spec: `attribute.Value.AsStringSlice`. -/
def ValueX.asStringSlice : ValueX → List String
  | some (.stringSliceValue l) => l
  | _ => []

/-- Modelled from the spec: a key/value pair over the open value type. -/
structure KeyValueX where
  key : String
  value : ValueX
deriving DecidableEq

/-- Embedding of a closed key/value pair into the open world. -/
def KeyValue.toX (kv : KeyValue) : KeyValueX := ⟨kv.key, some kv.value⟩

/-- Translation of the loop body of `equalKeyValue` over the zipped pair
list: per index, compare key, then kind tag, then the payload through the
kind-directed accessor; the default arm of the kind switch panics, which
is modelled as `none`. -/
def equalKeyValueLoop : List (KeyValueX × KeyValueX) → Option Bool
  | [] => some true
  | (x, y) :: rest =>
    if x.key ≠ y.key then some false
    else if x.value.vtype ≠ y.value.vtype then some false
    else
      match x.value.vtype with
      | .bool => if x.value.asBool ≠ y.value.asBool then some false else equalKeyValueLoop rest
      | .int64 => if x.value.asInt64 ≠ y.value.asInt64 then some false else equalKeyValueLoop rest
      | .float64 => if x.value.asFloat64 ≠ y.value.asFloat64 then some false else equalKeyValueLoop rest
      | .string => if x.value.asString ≠ y.value.asString then some false else equalKeyValueLoop rest
      | .boolSlice => if !equalSlices x.value.asBoolSlice y.value.asBoolSlice then some false else equalKeyValueLoop rest
      | .int64Slice => if !equalSlices x.value.asInt64Slice y.value.asInt64Slice then some false else equalKeyValueLoop rest
      | .float64Slice => if !equalSlices x.value.asFloat64Slice y.value.asFloat64Slice then some false else equalKeyValueLoop rest
      | .stringSlice => if !equalSlices x.value.asStringSlice y.value.asStringSlice then some false else equalKeyValueLoop rest
      | .invalid => none

/-- Translation of `equalKeyValue` over the open value type: length
check, then the index loop.  `none` models the panic on a value kind
outside the 8 known kinds. -/
def equalKeyValue (a b : List KeyValueX) : Option Bool :=
  if a.length ≠ b.length then some false
  else equalKeyValueLoop (a.zip b)

/-- Loop body of `equalKeyValueT` over the zipped pair list: per index,
compare key, then the kind-matched payload (a kind mismatch is the
`Type()` inequality of the source). -/
def equalKeyValueTLoop : List (KeyValue × KeyValue) → Bool
  | [] => true
  | (x, y) :: rest =>
    if x.key ≠ y.key then false
    else
      match x.value, y.value with
      | .boolValue xv, .boolValue yv => if xv ≠ yv then false else equalKeyValueTLoop rest
      | .int64Value xv, .int64Value yv => if xv ≠ yv then false else equalKeyValueTLoop rest
      | .float64Value xv, .float64Value yv => if xv ≠ yv then false else equalKeyValueTLoop rest
      | .stringValue xv, .stringValue yv => if xv ≠ yv then false else equalKeyValueTLoop rest
      | .boolSliceValue xv, .boolSliceValue yv => if !equalSlices xv yv then false else equalKeyValueTLoop rest
      | .int64SliceValue xv, .int64SliceValue yv => if !equalSlices xv yv then false else equalKeyValueTLoop rest
      | .float64SliceValue xv, .float64SliceValue yv => if !equalSlices xv yv then false else equalKeyValueTLoop rest
      | .stringSliceValue xv, .stringSliceValue yv => if !equalSlices xv yv then false else equalKeyValueTLoop rest
      | _, _ => false

/-- Translation of `equalKeyValue` specialized to the closed 8-kind value
union of the spec's data model, on which the panic arm is unreachable and
the function is total; this is the form the tree comparators consume. -/
def equalKeyValueT (a b : List KeyValue) : Bool :=
  if a.length ≠ b.length then false
  else equalKeyValueTLoop (a.zip b)

/-- Translation of the inner loop of `diffSlices` over `b`: skip visited
entries, mark the first unvisited entry satisfying the predicate. -/
def markFirst {α : Type} (eq : α → α → Bool) (x : α) : List (α × Bool) → Option (List (α × Bool))
  | [] => none
  | (y, v) :: ys =>
    if !v && eq x y then some ((y, true) :: ys)
    else (markFirst eq x ys).map (fun zs => (y, v) :: zs)

/-- Translation of the outer loop of `diffSlices` over `a`, carrying the
visited flags alongside the elements of `b`. -/
def diffLoop {α : Type} (eq : α → α → Bool) : List α → List (α × Bool) → List α × List (α × Bool)
  | [], bv => ([], bv)
  | x :: rest, bv =>
    match markFirst eq x bv with
    | some bv2 => diffLoop eq rest bv2
    | none =>
      let r := diffLoop eq rest bv
      (x :: r.1, r.2)

/-- Translation of `diffSlices`: greedy matching with a visited-flags
array; the unmatched elements of `a` and the never-visited elements of
`b` are returned, each in original order. -/
def diffSlices {α : Type} (a b : List α) (eq : α → α → Bool) : List α × List α :=
  let r := diffLoop eq a (b.map (fun y => (y, false)))
  (r.1, (r.2.filter (fun p => !p.2)).map Prod.fst)

/-- Helper of `compareDiff`: one rendered element per line. -/
def diffLines {α : Type} [GoRend α] (l : List α) : String :=
  String.join (l.map (fun v => rend v ++ "\n"))

/-- Translation of `compareDiff`: empty string when both unmatched lists
are empty, otherwise the headed blocks of rendered unmatched elements. -/
def compareDiff {α : Type} [GoRend α] (extraExpected extraActual : List α) : String :=
  if extraExpected.isEmpty && extraActual.isEmpty then ""
  else
    (if extraExpected.isEmpty then "" else "missing expected values:\n" ++ diffLines extraExpected)
      ++ (if extraActual.isEmpty then "" else "unexpected additional values:\n" ++ diffLines extraActual)

/-- Translation of `equalExemplars`. -/
def equalExemplars {ν : Type} [DecidableEq ν] [GoRend ν] (a b : Exemplar ν) (cfg : config) : List String :=
  (if !equalKeyValueT a.filteredAttributes b.filteredAttributes then
    [notEqualStr "FilteredAttributes" (rend a.filteredAttributes) (rend b.filteredAttributes)]
  else [])
  ++ (if !cfg.ignoreTimestamp then
      (if a.time ≠ b.time then [notEqualStr "Time" (rend a.time) (rend b.time)] else [])
    else [])
  ++ (if !cfg.ignoreValue then
      (if a.value ≠ b.value then [notEqualStr "Value" (rend a.value) (rend b.value)] else [])
    else [])
  ++ (if !equalSlices a.spanID b.spanID then [notEqualStr "SpanID" (rend a.spanID) (rend b.spanID)] else [])
  ++ (if !equalSlices a.traceID b.traceID then [notEqualStr "TraceID" (rend a.traceID) (rend b.traceID)] else [])

/-- Translation of `equalDataPoints`. -/
def equalDataPoints {ν : Type} [DecidableEq ν] [GoRend ν] (a b : DataPoint ν) (cfg : config) : List String :=
  (if ¬a.attributes = b.attributes then
    [notEqualStr "Attributes" a.attributes.encoded b.attributes.encoded]
  else [])
  ++ (if !cfg.ignoreTimestamp then
      (if a.startTime ≠ b.startTime then [notEqualStr "StartTime" (rend a.startTime) (rend b.startTime)] else [])
        ++ (if a.time ≠ b.time then [notEqualStr "Time" (rend a.time) (rend b.time)] else [])
    else [])
  ++ (if !cfg.ignoreValue then
      (if a.value ≠ b.value then [notEqualStr "Value" (rend a.value) (rend b.value)] else [])
    else [])
  ++ (if !cfg.ignoreExemplars then
      (let d := diffSlices a.exemplars b.exemplars (fun x y => (equalExemplars x y cfg).isEmpty)
      let r := compareDiff d.1 d.2
      if r ≠ "" then ["Exemplars not equal:\n" ++ r] else [])
    else [])

/-- Translation of `equalHistogramDataPoints`. -/
def equalHistogramDataPoints {ν : Type} [DecidableEq ν] [GoRend ν]
    (a b : HistogramDataPoint ν) (cfg : config) : List String :=
  (if ¬a.attributes = b.attributes then
    [notEqualStr "Attributes" a.attributes.encoded b.attributes.encoded]
  else [])
  ++ (if !cfg.ignoreTimestamp then
      (if a.startTime ≠ b.startTime then [notEqualStr "StartTime" (rend a.startTime) (rend b.startTime)] else [])
        ++ (if a.time ≠ b.time then [notEqualStr "Time" (rend a.time) (rend b.time)] else [])
    else [])
  ++ (if !cfg.ignoreValue then
      (if a.count ≠ b.count then [notEqualStr "Count" (rend a.count) (rend b.count)] else [])
        ++ (if !equalSlices a.bounds b.bounds then [notEqualStr "Bounds" (rend a.bounds) (rend b.bounds)] else [])
        ++ (if !equalSlices a.bucketCounts b.bucketCounts then
            [notEqualStr "BucketCounts" (rend a.bucketCounts) (rend b.bucketCounts)]
          else [])
        ++ (if !eqExtrema a.min b.min then [notEqualStr "Min" (rend a.min) (rend b.min)] else [])
        ++ (if !eqExtrema a.max b.max then [notEqualStr "Max" (rend a.max) (rend b.max)] else [])
        ++ (if a.sum ≠ b.sum then [notEqualStr "Sum" (rend a.sum) (rend b.sum)] else [])
    else [])
  ++ (if !cfg.ignoreExemplars then
      (let d := diffSlices a.exemplars b.exemplars (fun x y => (equalExemplars x y cfg).isEmpty)
      let r := compareDiff d.1 d.2
      if r ≠ "" then ["Exemplars not equal:\n" ++ r] else [])
    else [])

/-- Translation of `equalExponentialBuckets`. -/
def equalExponentialBuckets (a b : ExponentialBucket) (_ : config) : List String :=
  (if a.offset ≠ b.offset then [notEqualStr "Offset" (rend a.offset) (rend b.offset)] else [])
  ++ (if !equalSlices a.counts b.counts then [notEqualStr "Counts" (rend a.counts) (rend b.counts)] else [])

/-- Translation of `equalExponentialHistogramDataPoints`. -/
def equalExponentialHistogramDataPoints {ν : Type} [DecidableEq ν] [GoRend ν]
    (a b : ExponentialHistogramDataPoint ν) (cfg : config) : List String :=
  (if ¬a.attributes = b.attributes then
    [notEqualStr "Attributes" a.attributes.encoded b.attributes.encoded]
  else [])
  ++ (if !cfg.ignoreTimestamp then
      (if a.startTime ≠ b.startTime then [notEqualStr "StartTime" (rend a.startTime) (rend b.startTime)] else [])
        ++ (if a.time ≠ b.time then [notEqualStr "Time" (rend a.time) (rend b.time)] else [])
    else [])
  ++ (if !cfg.ignoreValue then
      (if a.count ≠ b.count then [notEqualStr "Count" (rend a.count) (rend b.count)] else [])
        ++ (if !eqExtrema a.min b.min then [notEqualStr "Min" (rend a.min) (rend b.min)] else [])
        ++ (if !eqExtrema a.max b.max then [notEqualStr "Max" (rend a.max) (rend b.max)] else [])
        ++ (if a.sum ≠ b.sum then [notEqualStr "Sum" (rend a.sum) (rend b.sum)] else [])
        ++ (if a.scale ≠ b.scale then [notEqualStr "Scale" (rend a.scale) (rend b.scale)] else [])
        ++ (if a.zeroCount ≠ b.zeroCount then [notEqualStr "ZeroCount" (rend a.zeroCount) (rend b.zeroCount)] else [])
        ++ equalExponentialBuckets a.positiveBucket b.positiveBucket cfg
        ++ equalExponentialBuckets a.negativeBucket b.negativeBucket cfg
    else [])
  ++ (if !cfg.ignoreExemplars then
      (let d := diffSlices a.exemplars b.exemplars (fun x y => (equalExemplars x y cfg).isEmpty)
      let r := compareDiff d.1 d.2
      if r ≠ "" then ["Exemplars not equal:\n" ++ r] else [])
    else [])

/-- Translation of `equalGauges`. -/
def equalGauges {ν : Type} [DecidableEq ν] [GoRend ν] (a b : Gauge ν) (cfg : config) : List String :=
  let d := diffSlices a.dataPoints b.dataPoints (fun x y => (equalDataPoints x y cfg).isEmpty)
  let r := compareDiff d.1 d.2
  if r ≠ "" then ["Gauge DataPoints not equal:\n" ++ r] else []

/-- Translation of `equalSums`. -/
def equalSums {ν : Type} [DecidableEq ν] [GoRend ν] (a b : Sum ν) (cfg : config) : List String :=
  (if a.temporality ≠ b.temporality then [notEqualStr "Temporality" (rend a.temporality) (rend b.temporality)] else [])
  ++ (if a.isMonotonic ≠ b.isMonotonic then [notEqualStr "IsMonotonic" (rend a.isMonotonic) (rend b.isMonotonic)] else [])
  ++ (let d := diffSlices a.dataPoints b.dataPoints (fun x y => (equalDataPoints x y cfg).isEmpty)
    let r := compareDiff d.1 d.2
    if r ≠ "" then ["Sum DataPoints not equal:\n" ++ r] else [])

/-- Translation of `equalHistograms`. -/
def equalHistograms {ν : Type} [DecidableEq ν] [GoRend ν] (a b : Histogram ν) (cfg : config) : List String :=
  (if a.temporality ≠ b.temporality then [notEqualStr "Temporality" (rend a.temporality) (rend b.temporality)] else [])
  ++ (let d := diffSlices a.dataPoints b.dataPoints (fun x y => (equalHistogramDataPoints x y cfg).isEmpty)
    let r := compareDiff d.1 d.2
    if r ≠ "" then ["Histogram DataPoints not equal:\n" ++ r] else [])

/-- Translation of `equalExponentialHistograms`. -/
def equalExponentialHistograms {ν : Type} [DecidableEq ν] [GoRend ν]
    (a b : ExponentialHistogram ν) (cfg : config) : List String :=
  (if a.temporality ≠ b.temporality then [notEqualStr "Temporality" (rend a.temporality) (rend b.temporality)] else [])
  ++ (let d := diffSlices a.dataPoints b.dataPoints (fun x y => (equalExponentialHistogramDataPoints x y cfg).isEmpty)
    let r := compareDiff d.1 d.2
    if r ≠ "" then ["Histogram DataPoints not equal:\n" ++ r] else [])

/-- Translation of `equalAggregations`: the two `nil` checks (absent on
both sides is equal, absent on one side is one reason), the
`reflect.TypeOf` equality check (one reason and no recursion on
mismatch), and the variant switch dispatching to the variant-specific
comparator, whose default arm reports an unknown aggregation type. -/
def equalAggregations (a b : Aggregation) (cfg : config) : List String :=
  match a, b with
  | none, none => []
  | none, some bv => [notEqualStr "Aggregation" (rend (none : Aggregation)) (rend (some bv : Aggregation))]
  | some av, none => [notEqualStr "Aggregation" (rend (some av : Aggregation)) (rend (none : Aggregation))]
  | some av, some bv =>
    if av.tyOf ≠ bv.tyOf then
      ["Aggregation types not equal:\nexpected: " ++ rend av.tyOf ++ "\nactual: " ++ rend bv.tyOf]
    else
      match av, bv with
      | .gaugeInt v, .gaugeInt w =>
        let r := equalGauges v w cfg
        if r.length > 0 then "Gauge[int64] not equal:" :: r else []
      | .gaugeFloat v, .gaugeFloat w =>
        let r := equalGauges v w cfg
        if r.length > 0 then "Gauge[float64] not equal:" :: r else []
      | .sumInt v, .sumInt w =>
        let r := equalSums v w cfg
        if r.length > 0 then "Sum[int64] not equal:" :: r else []
      | .sumFloat v, .sumFloat w =>
        let r := equalSums v w cfg
        if r.length > 0 then "Sum[float64] not equal:" :: r else []
      | .histInt v, .histInt w =>
        let r := equalHistograms v w cfg
        if r.length > 0 then "Histogram not equal:" :: r else []
      | .histFloat v, .histFloat w =>
        let r := equalHistograms v w cfg
        if r.length > 0 then "Histogram not equal:" :: r else []
      | .expHistInt v, .expHistInt w =>
        let r := equalExponentialHistograms v w cfg
        if r.length > 0 then "ExponentialHistogram not equal:" :: r else []
      | .expHistFloat v, .expHistFloat w =>
        let r := equalExponentialHistograms v w cfg
        if r.length > 0 then "ExponentialHistogram not equal:" :: r else []
      | v, _ => ["Aggregation of unknown types " ++ rend v.tyOf]

/-- Translation of `equalMetrics`. -/
def equalMetrics (a b : Metrics) (cfg : config) : List String :=
  (if a.name ≠ b.name then [notEqualStr "Name" a.name b.name] else [])
  ++ (if a.description ≠ b.description then [notEqualStr "Description" a.description b.description] else [])
  ++ (if a.unit ≠ b.unit then [notEqualStr "Unit" a.unit b.unit] else [])
  ++ (let r := equalAggregations a.data b.data cfg
    if r.length > 0 then "Metrics Data not equal:" :: r else [])

/-- Translation of `equalScopeMetrics`. -/
def equalScopeMetrics (a b : ScopeMetrics) (cfg : config) : List String :=
  (if a.scope ≠ b.scope then [notEqualStr "Scope" (rend a.scope) (rend b.scope)] else [])
  ++ (let d := diffSlices a.metrics b.metrics (fun x y => (equalMetrics x y cfg).isEmpty)
    let r := compareDiff d.1 d.2
    if r ≠ "" then ["ScopeMetrics Metrics not equal:\n" ++ r] else [])

/-- Translation of `equalResourceMetrics` (`Resource.Equal` is modelled
as value equality of resources). -/
def equalResourceMetrics (a b : ResourceMetrics) (cfg : config) : List String :=
  (if ¬a.resource = b.resource then [notEqualStr "Resources" (rend a.resource) (rend b.resource)] else [])
  ++ (let d := diffSlices a.scopeMetrics b.scopeMetrics (fun x y => (equalScopeMetrics x y cfg).isEmpty)
    let r := compareDiff d.1 d.2
    if r ≠ "" then ["ResourceMetrics ScopeMetrics not equal:\n" ++ r] else [])

/-- Translation of `missingAttrStr`. -/
def missingAttrStr (name : String) : String := "missing attribute " ++ name

/-- Translation of `hasAttributesExemplars`: builds a set from the
exemplar's filtered attributes and checks each wanted attribute. -/
def hasAttributesExemplars {ν : Type} (exemplar : Exemplar ν) (attrs : List KeyValue) : List String :=
  let s := AttrSet.ofList exemplar.filteredAttributes
  attrs.flatMap (fun attr =>
    match s.value attr.key with
    | none => [missingAttrStr attr.key]
    | some val => if val ≠ attr.value then [notEqualStr attr.key attr.value.emit val.emit] else [])

/-- Translation of `hasAttributesDataPoints`. -/
def hasAttributesDataPoints {ν : Type} (dp : DataPoint ν) (attrs : List KeyValue) : List String :=
  attrs.flatMap (fun attr =>
    match dp.attributes.value attr.key with
    | none => [missingAttrStr attr.key]
    | some val => if val ≠ attr.value then [notEqualStr attr.key attr.value.emit val.emit] else [])

/-- Translation of `hasAttributesGauge`: per-data-point check with a
positional context line on failure. -/
def hasAttributesGauge {ν : Type} (gauge : Gauge ν) (attrs : List KeyValue) : List String :=
  (gauge.dataPoints.enum.flatMap (fun p =>
    let reas := hasAttributesDataPoints p.2 attrs
    if reas.length > 0 then ("gauge datapoint " ++ rend p.1 ++ " attributes:\n") :: reas else []))

/-- Translation of `hasAttributesSum`. -/
def hasAttributesSum {ν : Type} (sum : Sum ν) (attrs : List KeyValue) : List String :=
  (sum.dataPoints.enum.flatMap (fun p =>
    let reas := hasAttributesDataPoints p.2 attrs
    if reas.length > 0 then ("sum datapoint " ++ rend p.1 ++ " attributes:\n") :: reas else []))

/-- Translation of `hasAttributesHistogramDataPoints`. -/
def hasAttributesHistogramDataPoints {ν : Type} (dp : HistogramDataPoint ν) (attrs : List KeyValue) : List String :=
  attrs.flatMap (fun attr =>
    match dp.attributes.value attr.key with
    | none => [missingAttrStr attr.key]
    | some val => if val ≠ attr.value then [notEqualStr attr.key attr.value.emit val.emit] else [])

/-- Translation of `hasAttributesHistogram`. -/
def hasAttributesHistogram {ν : Type} (histogram : Histogram ν) (attrs : List KeyValue) : List String :=
  (histogram.dataPoints.enum.flatMap (fun p =>
    let reas := hasAttributesHistogramDataPoints p.2 attrs
    if reas.length > 0 then ("histogram datapoint " ++ rend p.1 ++ " attributes:\n") :: reas else []))

/-- Translation of `hasAttributesExponentialHistogramDataPoints`. -/
def hasAttributesExponentialHistogramDataPoints {ν : Type}
    (dp : ExponentialHistogramDataPoint ν) (attrs : List KeyValue) : List String :=
  attrs.flatMap (fun attr =>
    match dp.attributes.value attr.key with
    | none => [missingAttrStr attr.key]
    | some val => if val ≠ attr.value then [notEqualStr attr.key attr.value.emit val.emit] else [])

/-- Translation of `hasAttributesExponentialHistogram`. -/
def hasAttributesExponentialHistogram {ν : Type}
    (histogram : ExponentialHistogram ν) (attrs : List KeyValue) : List String :=
  (histogram.dataPoints.enum.flatMap (fun p =>
    let reas := hasAttributesExponentialHistogramDataPoints p.2 attrs
    if reas.length > 0 then ("histogram datapoint " ++ rend p.1 ++ " attributes:\n") :: reas else []))

/-- Translation of `hasAttributesAggregation`: the variant switch of the
containment checker (its default arm also catches the absent payload,
which the Go interface value reaches as a `nil` dynamic type). -/
def hasAttributesAggregation (agg : Aggregation) (attrs : List KeyValue) : List String :=
  match agg with
  | some (.gaugeInt g) => hasAttributesGauge g attrs
  | some (.gaugeFloat g) => hasAttributesGauge g attrs
  | some (.sumInt s) => hasAttributesSum s attrs
  | some (.sumFloat s) => hasAttributesSum s attrs
  | some (.histInt h) => hasAttributesHistogram h attrs
  | some (.histFloat h) => hasAttributesHistogram h attrs
  | some (.expHistInt h) => hasAttributesExponentialHistogram h attrs
  | some (.expHistFloat h) => hasAttributesExponentialHistogram h attrs
  | some (.other tag) => ["unknown aggregation " ++ tag]
  | none => ["unknown aggregation <nil>"]

/-- Translation of `hasAttributesMetrics`. -/
def hasAttributesMetrics (metrics : Metrics) (attrs : List KeyValue) : List String :=
  let reas := hasAttributesAggregation metrics.data attrs
  if reas.length > 0 then ("Metric " ++ metrics.name ++ ":\n") :: reas else []

/-- Translation of `hasAttributesScopeMetrics`. -/
def hasAttributesScopeMetrics (sm : ScopeMetrics) (attrs : List KeyValue) : List String :=
  (sm.metrics.enum.flatMap (fun p =>
    let reas := hasAttributesMetrics p.2 attrs
    if reas.length > 0 then ("ScopeMetrics " ++ sm.scope.name ++ " Metrics " ++ rend p.1 ++ ":\n") :: reas else []))

/-- Translation of `hasAttributesResourceMetrics`. -/
def hasAttributesResourceMetrics (rm : ResourceMetrics) (attrs : List KeyValue) : List String :=
  (rm.scopeMetrics.enum.flatMap (fun p =>
    let reas := hasAttributesScopeMetrics p.2 attrs
    if reas.length > 0 then ("ResourceMetrics ScopeMetrics " ++ rend p.1 ++ ":\n") :: reas else []))

/-! Theory of the greedy multiset matcher. -/

/-- Specification-side greedy scan (the spec's words): find the first
element of `b` satisfying the predicate against `x` and consume it,
returning the remaining elements in order. -/
def removeFirstMatch {α : Type} (eq : α → α → Bool) (x : α) : List α → Option (List α)
  | [] => none
  | y :: ys => if eq x y then some ys else (removeFirstMatch eq x ys).map (fun zs => y :: zs)

/-- Specification-side greedy matcher (the spec's words): process `a` in
order, matching each element against the first not-yet-consumed element
of `b`; unmatched elements of `a` and never-consumed elements of `b` are
returned in their original order. -/
def greedyDiff {α : Type} (eq : α → α → Bool) : List α → List α → List α × List α
  | [], b => ([], b)
  | x :: rest, b =>
    match removeFirstMatch eq x b with
    | some b2 => greedyDiff eq rest b2
    | none =>
      let r := greedyDiff eq rest b
      (x :: r.1, r.2)

/-- Unvisited elements of a flagged list, in order. -/
def unvis {α : Type} (bv : List (α × Bool)) : List α :=
  (bv.filter (fun p => !p.2)).map Prod.fst

theorem unvis_cons_true {α : Type} (y : α) (ys : List (α × Bool)) :
    unvis ((y, true) :: ys) = unvis ys := by
  simp [unvis]

theorem unvis_cons_false {α : Type} (y : α) (ys : List (α × Bool)) :
    unvis ((y, false) :: ys) = y :: unvis ys := by
  simp [unvis]

theorem markFirst_unvis {α : Type} (eq : α → α → Bool) (x : α) (bv : List (α × Bool)) :
    removeFirstMatch eq x (unvis bv) = (markFirst eq x bv).map unvis := by
  induction bv with
  | nil => rfl
  | cons hd tl ih =>
    obtain ⟨y, v⟩ := hd
    cases v with
    | true =>
      rw [unvis_cons_true, ih]
      cases hm : markFirst eq x tl <;> simp [markFirst, hm, unvis, ← ih]
    | false =>
      by_cases he : eq x y = true
      · rw [unvis_cons_false]
        simp [removeFirstMatch, he, markFirst, unvis_cons_true, unvis]
      · rw [unvis_cons_false]
        simp only [removeFirstMatch, if_neg he, ih]
        simp only [markFirst, Bool.not_false, Bool.true_and, if_neg he]
        cases hm : markFirst eq x tl <;> simp [hm, unvis_cons_false, unvis]

theorem unvis_init {α : Type} (b : List α) : unvis (b.map (fun y => (y, false))) = b := by
  induction b with
  | nil => rfl
  | cons x rest ih => simpa [unvis_cons_false] using ih

theorem diffLoop_greedy {α : Type} (eq : α → α → Bool) (a : List α) (bv : List (α × Bool)) :
    (diffLoop eq a bv).1 = (greedyDiff eq a (unvis bv)).1 ∧
      unvis (diffLoop eq a bv).2 = (greedyDiff eq a (unvis bv)).2 := by
  induction a generalizing bv with
  | nil => exact ⟨rfl, rfl⟩
  | cons x rest ih =>
    have hbridge := markFirst_unvis eq x bv
    cases hm : markFirst eq x bv with
    | some bv2 =>
      rw [hm, Option.map_some'] at hbridge
      simp only [diffLoop, hm, greedyDiff, hbridge]
      exact ih bv2
    | none =>
      rw [hm, Option.map_none'] at hbridge
      simp only [diffLoop, hm, greedyDiff, hbridge]
      exact ⟨by rw [(ih bv).1], (ih bv).2⟩

/-- The flags-based `diffSlices` computes exactly the specification-side
greedy matcher. -/
theorem diffSlices_eq_greedyDiff {α : Type} (a b : List α) (eq : α → α → Bool) :
    diffSlices a b eq = greedyDiff eq a b := by
  have h := diffLoop_greedy eq a (b.map (fun y => (y, false)))
  rw [unvis_init] at h
  unfold diffSlices
  exact Prod.ext h.1 h.2

theorem removeFirstMatch_some {α : Type} {eq : α → α → Bool} {x : α} {b b2 : List α}
    (h : removeFirstMatch eq x b = some b2) :
    ∃ y, eq x y = true ∧ (b : Multiset α) = y ::ₘ (b2 : Multiset α) := by
  induction b generalizing b2 with
  | nil => simp [removeFirstMatch] at h
  | cons z zs ih =>
    by_cases he : eq x z = true
    · simp only [removeFirstMatch, if_pos he, Option.some.injEq] at h
      exact ⟨z, he, by rw [← h, Multiset.cons_coe]⟩
    · simp only [removeFirstMatch, if_neg he, Option.map_eq_some'] at h
      obtain ⟨zs2, hzs2, hb2⟩ := h
      obtain ⟨y, hey, hzs⟩ := ih hzs2
      refine ⟨y, hey, ?_⟩
      rw [← hb2, ← Multiset.cons_coe, ← Multiset.cons_coe, hzs, Multiset.cons_swap]

theorem removeFirstMatch_isSome {α : Type} (eq : α → α → Bool) (x : α) {b : List α} {y : α}
    (hy : y ∈ b) (he : eq x y = true) : ∃ b2, removeFirstMatch eq x b = some b2 := by
  induction b with
  | nil => cases hy
  | cons z zs ih =>
    by_cases hez : eq x z = true
    · exact ⟨zs, by simp [removeFirstMatch, hez]⟩
    · rcases List.mem_cons.mp hy with h | h
      · subst h; exact absurd he hez
      · obtain ⟨b2, hb2⟩ := ih h
        exact ⟨z :: b2, by simp [removeFirstMatch, hez, hb2]⟩

theorem removeFirstMatch_sublist {α : Type} {eq : α → α → Bool} {x : α} {b b2 : List α}
    (h : removeFirstMatch eq x b = some b2) : b2.Sublist b := by
  induction b generalizing b2 with
  | nil => simp [removeFirstMatch] at h
  | cons z zs ih =>
    by_cases he : eq x z = true
    · simp only [removeFirstMatch, if_pos he, Option.some.injEq] at h
      rw [← h]
      exact List.sublist_cons_self z zs
    · simp only [removeFirstMatch, if_neg he, Option.map_eq_some'] at h
      obtain ⟨zs2, hzs2, hb2⟩ := h
      rw [← hb2]
      exact List.Sublist.cons₂ z (ih hzs2)

theorem greedy_empty_rel {α : Type} {eq : α → α → Bool} {a b : List α}
    (h : greedyDiff eq a b = ([], [])) :
    Multiset.Rel (fun u v => eq u v = true) (↑a) (↑b) := by
  induction a generalizing b with
  | nil =>
    simp only [greedyDiff, Prod.mk.injEq] at h
    obtain ⟨-, rfl⟩ := h
    simp
  | cons x rest ih =>
    cases hm : removeFirstMatch eq x b with
    | none => simp [greedyDiff, hm] at h
    | some b2 =>
      simp only [greedyDiff, hm] at h
      obtain ⟨y, hey, hb⟩ := removeFirstMatch_some hm
      rw [hb, ← Multiset.cons_coe]
      exact Multiset.Rel.cons hey (ih h)

theorem rel_cancel {α : Type} {r : α → α → Prop}
    (hsymm : ∀ u v, r u v → r v u) (htrans : ∀ u v w, r u v → r v w → r u w)
    {x z : α} {A B : Multiset α}
    (hxz : r x z) (h : Multiset.Rel r (x ::ₘ A) (z ::ₘ B)) : Multiset.Rel r A B := by
  obtain ⟨y, B2, hxy, hAB2, hcons⟩ := Multiset.rel_cons_left.mp h
  rcases Multiset.cons_eq_cons.mp hcons with ⟨hyz, hBB2⟩ | ⟨_, cs, hBcs, hB2cs⟩
  · rw [hBB2]
    exact hAB2
  · rw [hB2cs] at hAB2
    obtain ⟨u, A2, huz, hA2cs, hA⟩ := Multiset.rel_cons_right.mp hAB2
    have huy : r u y := htrans _ _ _ (htrans _ _ _ huz (hsymm _ _ hxz)) hxy
    rw [hA, hBcs]
    exact Multiset.Rel.cons huy hA2cs

theorem rel_greedy_empty {α : Type} {eq : α → α → Bool}
    (hsymm : ∀ u v, eq u v = true → eq v u = true)
    (htrans : ∀ u v w, eq u v = true → eq v w = true → eq u w = true)
    {a b : List α} (h : Multiset.Rel (fun u v => eq u v = true) (↑a) (↑b)) :
    greedyDiff eq a b = ([], []) := by
  induction a generalizing b with
  | nil =>
    have h0 : Multiset.Rel (fun u v => eq u v = true) 0 (↑b) := by simpa using h
    have hb : b = [] := (Multiset.coe_eq_zero b).mp (Multiset.rel_zero_left.mp h0)
    subst hb
    rfl
  | cons x rest ih =>
    rw [← Multiset.cons_coe] at h
    obtain ⟨y, B2, hxy, _, hb⟩ := Multiset.rel_cons_left.mp h
    have hymem : y ∈ b := by
      rw [← Multiset.mem_coe, hb]
      exact Multiset.mem_cons_self y B2
    obtain ⟨b2, hm⟩ := removeFirstMatch_isSome eq x hymem hxy
    obtain ⟨z, hxz, hbz⟩ := removeFirstMatch_some hm
    have h2 : Multiset.Rel (fun u v => eq u v = true) (x ::ₘ (↑rest)) (z ::ₘ (↑b2)) := by
      rw [← hbz]
      exact h
    have h3 := rel_cancel (fun u v hh => hsymm u v hh) (fun u v w h1 h2 => htrans u v w h1 h2) hxz h2
    simp only [greedyDiff, hm]
    exact ih h3

/-- Emptiness of the greedy diff coincides with relational multiset
equality whenever the predicate is symmetric and transitive. -/
theorem diffSlices_empty_iff {α : Type} {eq : α → α → Bool}
    (hsymm : ∀ u v, eq u v = true → eq v u = true)
    (htrans : ∀ u v w, eq u v = true → eq v w = true → eq u w = true)
    (a b : List α) :
    diffSlices a b eq = ([], []) ↔ Multiset.Rel (fun u v => eq u v = true) (↑a) (↑b) := by
  rw [diffSlices_eq_greedyDiff]
  exact ⟨greedy_empty_rel, rel_greedy_empty hsymm htrans⟩

theorem diffSlices_empty_refl {α : Type} {eq : α → α → Bool} {a : List α}
    (hrefl : ∀ x ∈ a, eq x x = true) : diffSlices a a eq = ([], []) := by
  rw [diffSlices_eq_greedyDiff]
  induction a with
  | nil => rfl
  | cons x rest ih =>
    have hx : eq x x = true := hrefl x (List.mem_cons_self x rest)
    have hm : removeFirstMatch eq x (x :: rest) = some rest := by
      simp [removeFirstMatch, hx]
    simp only [greedyDiff, hm]
    exact ih (fun z hz => hrefl z (List.mem_cons_of_mem x hz))

theorem diffSlices_empty_symm {α : Type} {eq : α → α → Bool}
    (hsymm : ∀ u v, eq u v = true → eq v u = true)
    (htrans : ∀ u v w, eq u v = true → eq v w = true → eq u w = true)
    {a b : List α} (h : diffSlices a b eq = ([], [])) : diffSlices b a eq = ([], []) := by
  rw [diffSlices_empty_iff hsymm htrans] at *
  have := Multiset.rel_flip.mpr h
  exact this.mono (fun u _ v _ hf => hsymm v u hf)

theorem diffSlices_empty_trans {α : Type} {eq : α → α → Bool}
    (hsymm : ∀ u v, eq u v = true → eq v u = true)
    (htrans : ∀ u v w, eq u v = true → eq v w = true → eq u w = true)
    {a b c : List α} (h1 : diffSlices a b eq = ([], [])) (h2 : diffSlices b c eq = ([], [])) :
    diffSlices a c eq = ([], []) := by
  rw [diffSlices_empty_iff hsymm htrans] at *
  haveI : IsTrans α (fun u v => eq u v = true) := ⟨fun u v w => htrans u v w⟩
  exact Multiset.Rel.trans _ h1 h2

theorem diffSlices_empty_perm_right {α : Type} {eq : α → α → Bool}
    (hsymm : ∀ u v, eq u v = true → eq v u = true)
    (htrans : ∀ u v w, eq u v = true → eq v w = true → eq u w = true)
    {a b b2 : List α} (hperm : b.Perm b2) :
    diffSlices a b eq = ([], []) ↔ diffSlices a b2 eq = ([], []) := by
  rw [diffSlices_empty_iff hsymm htrans, diffSlices_empty_iff hsymm htrans,
    Multiset.coe_eq_coe.mpr hperm]

theorem diffSlices_empty_perm_left {α : Type} {eq : α → α → Bool}
    (hsymm : ∀ u v, eq u v = true → eq v u = true)
    (htrans : ∀ u v w, eq u v = true → eq v w = true → eq u w = true)
    {a a2 b : List α} (hperm : a.Perm a2) :
    diffSlices a b eq = ([], []) ↔ diffSlices a2 b eq = ([], []) := by
  rw [diffSlices_empty_iff hsymm htrans, diffSlices_empty_iff hsymm htrans,
    Multiset.coe_eq_coe.mpr hperm]

theorem greedy_length {α : Type} (eq : α → α → Bool) (a b : List α) :
    a.length + (greedyDiff eq a b).2.length = b.length + (greedyDiff eq a b).1.length := by
  induction a generalizing b with
  | nil => simp [greedyDiff]
  | cons x rest ih =>
    cases hm : removeFirstMatch eq x b with
    | none =>
      simp only [greedyDiff, hm, List.length_cons]
      have := ih b
      omega
    | some b2 =>
      simp only [greedyDiff, hm, List.length_cons]
      have hlen : b.length = b2.length + 1 := by
        obtain ⟨y, _, hb⟩ := removeFirstMatch_some hm
        have := congrArg Multiset.card hb
        simpa [Multiset.coe_card] using this
      have := ih b2
      omega

theorem greedy_extraA_sublist {α : Type} (eq : α → α → Bool) (a b : List α) :
    (greedyDiff eq a b).1.Sublist a := by
  induction a generalizing b with
  | nil => simp [greedyDiff]
  | cons x rest ih =>
    cases hm : removeFirstMatch eq x b with
    | none =>
      simp only [greedyDiff, hm]
      exact List.Sublist.cons₂ x (ih b)
    | some b2 =>
      simp only [greedyDiff, hm]
      exact List.Sublist.cons x (ih b2)

theorem greedy_extraB_sublist {α : Type} (eq : α → α → Bool) (a b : List α) :
    (greedyDiff eq a b).2.Sublist b := by
  induction a generalizing b with
  | nil => simp [greedyDiff]
  | cons x rest ih =>
    cases hm : removeFirstMatch eq x b with
    | none =>
      simp only [greedyDiff, hm]
      exact ih b
    | some b2 =>
      simp only [greedyDiff, hm]
      exact (ih b2).trans (removeFirstMatch_sublist hm)

/-! Characterizations of the leaf equality primitives. -/

theorem equalSlices_iff {α : Type} [DecidableEq α] (a b : List α) : equalSlices a b = true ↔ a = b := by
  induction a generalizing b with
  | nil => cases b <;> simp [equalSlices]
  | cons x xs ih =>
    cases b with
    | nil => simp [equalSlices]
    | cons y ys =>
      by_cases hl : xs.length = ys.length
      · have ih2 := ih ys
        simp only [equalSlices, List.length_cons, ne_eq, List.zip_cons_cons, List.all_cons,
          Bool.and_eq_true, decide_eq_true_eq, List.cons.injEq] at ih2 ⊢
        rw [if_neg (by simp [hl])] at ih2
        rw [if_neg (by simp [hl])]
        simp [ih2]
      · simp only [equalSlices, List.length_cons, ne_eq, List.cons.injEq]
        rw [if_pos (by simpa using hl)]
        simp only [Bool.false_eq_true, false_iff, not_and]
        intro _ h
        exact hl (by rw [h])

theorem equalKeyValueTLoop_cons (x y : KeyValue) (rest : List (KeyValue × KeyValue)) :
    equalKeyValueTLoop ((x, y) :: rest) = true ↔ (x = y ∧ equalKeyValueTLoop rest = true) := by
  obtain ⟨xk, xv⟩ := x
  obtain ⟨yk, yv⟩ := y
  by_cases hk : xk = yk
  · subst hk
    cases xv <;> cases yv <;>
      simp [equalKeyValueTLoop, equalSlices_iff, KeyValue.mk.injEq]
  · simp [equalKeyValueTLoop, hk, KeyValue.mk.injEq]

theorem equalKeyValueT_iff (a b : List KeyValue) : equalKeyValueT a b = true ↔ a = b := by
  induction a generalizing b with
  | nil => cases b <;> simp [equalKeyValueT, equalKeyValueTLoop]
  | cons x xs ih =>
    cases b with
    | nil => simp [equalKeyValueT]
    | cons y ys =>
      by_cases hl : xs.length = ys.length
      · have ih2 := ih ys
        simp only [equalKeyValueT, List.length_cons, ne_eq, List.zip_cons_cons,
          List.cons.injEq] at ih2 ⊢
        rw [if_neg (by simp [hl])] at ih2
        rw [if_neg (by simp [hl])]
        rw [equalKeyValueTLoop_cons]
        simp [ih2]
      · simp only [equalKeyValueT, List.length_cons, ne_eq, List.cons.injEq]
        rw [if_pos (by simpa using hl)]
        simp only [Bool.false_eq_true, false_iff, not_and]
        intro _ h
        exact hl (by rw [h])

theorem eqExtrema_iff {ν : Type} [DecidableEq ν] (a b : Extrema ν) :
    eqExtrema a b = true ↔
      ((a.valid = false ∧ b.valid = false) ∨ (a.valid = true ∧ b.valid = true ∧ a.value = b.value)) := by
  obtain ⟨av, aok⟩ := a
  obtain ⟨bv, bok⟩ := b
  cases aok <;> cases bok <;> simp [eqExtrema, Extrema.valueOk]

theorem eqExtrema_refl {ν : Type} [DecidableEq ν] (a : Extrema ν) : eqExtrema a a = true := by
  rw [eqExtrema_iff]
  cases h : a.valid <;> simp [h]

theorem eqExtrema_symm {ν : Type} [DecidableEq ν] {a b : Extrema ν}
    (h : eqExtrema a b = true) : eqExtrema b a = true := by
  rw [eqExtrema_iff] at *
  tauto

theorem eqExtrema_trans {ν : Type} [DecidableEq ν] {a b c : Extrema ν}
    (h1 : eqExtrema a b = true) (h2 : eqExtrema b c = true) : eqExtrema a c = true := by
  rw [eqExtrema_iff] at *
  rcases h1 with ⟨ha, hb⟩ | ⟨ha, hb, hv⟩ <;> rcases h2 with ⟨hb2, hc⟩ | ⟨hb2, hc, hv2⟩ <;>
    simp_all

theorem compareDiff_ne_empty {α : Type} [GoRend α] (ea eb : List α)
    (h : ¬(ea = [] ∧ eb = [])) : compareDiff ea eb ≠ "" := by
  cases ea with
  | cons x xs =>
    have hshape : compareDiff (x :: xs) eb =
        ("missing expected values:\n" ++ diffLines (x :: xs))
          ++ (if eb.isEmpty then "" else "unexpected additional values:\n" ++ diffLines eb) := by
      simp [compareDiff]
    rw [hshape]
    intro habs
    have hlen := congrArg String.length habs
    simp only [String.length_append] at hlen
    have h25 : ("missing expected values:\n").length = 25 := rfl
    have hz : ("" : String).length = 0 := rfl
    rw [h25, hz] at hlen
    omega
  | nil =>
    cases eb with
    | nil => exact absurd ⟨rfl, rfl⟩ h
    | cons y ys =>
      have hshape : compareDiff ([] : List α) (y :: ys) =
          "" ++ ("unexpected additional values:\n" ++ diffLines (y :: ys)) := by
        simp [compareDiff]
      rw [hshape]
      intro habs
      have hlen := congrArg String.length habs
      simp only [String.length_append] at hlen
      have h30 : ("unexpected additional values:\n").length = 30 := rfl
      have hz : ("" : String).length = 0 := rfl
      rw [h30, hz] at hlen
      omega

theorem compareDiff_eq_empty_iff {α : Type} [GoRend α] (ea eb : List α) :
    compareDiff ea eb = "" ↔ (ea = [] ∧ eb = []) := by
  constructor
  · intro h
    by_contra hne
    exact compareDiff_ne_empty ea eb hne h
  · rintro ⟨rfl, rfl⟩
    rfl

theorem ifReason_empty {α : Type} [GoRend α] (msg : String) (ea eb : List α) :
    (if compareDiff ea eb ≠ "" then [msg ++ compareDiff ea eb] else []) = [] ↔
      (ea = [] ∧ eb = []) := by
  by_cases h : compareDiff ea eb = ""
  · rw [if_neg (by simp [h])]
    simpa using (compareDiff_eq_empty_iff ea eb).mp h
  · rw [if_pos h]
    simp only [List.cons_ne_nil, false_iff]
    intro hc
    exact h ((compareDiff_eq_empty_iff ea eb).mpr hc)

theorem ifB_empty (b : Bool) (r : String) :
    (if !b then [r] else []) = ([] : List String) ↔ b = true := by
  cases b <;> simp

theorem ifP_empty (p : Prop) [Decidable p] (r : String) :
    (if p then [r] else []) = ([] : List String) ↔ ¬p := by
  by_cases h : p <;> simp [h]

theorem ifFlag_empty (fl : Bool) (l : List String) :
    (if !fl then l else []) = [] ↔ (fl = true ∨ l = []) := by
  cases fl <;> simp

theorem ifFlagF_empty (fl : Bool) (l : List String) :
    (if fl = false then l else []) = [] ↔ (fl = true ∨ l = []) := by
  cases fl <;> simp

theorem pair_eq_nil {α : Type} (p : List α × List α) :
    p = ([], []) ↔ (p.1 = [] ∧ p.2 = []) := by
  obtain ⟨x, y⟩ := p
  simp

/-! Emptiness characterizations of each comparator level. -/

theorem equalExemplars_empty_iff {ν : Type} [DecidableEq ν] [GoRend ν]
    (a b : Exemplar ν) (cfg : config) :
    equalExemplars a b cfg = [] ↔
      (a.filteredAttributes = b.filteredAttributes
        ∧ (cfg.ignoreTimestamp = true ∨ a.time = b.time)
        ∧ (cfg.ignoreValue = true ∨ a.value = b.value)
        ∧ a.spanID = b.spanID ∧ a.traceID = b.traceID) := by
  simp only [equalExemplars, List.append_eq_nil, ifB_empty, ifFlag_empty, ifFlagF_empty, ifP_empty,
    Bool.not_eq_true', Bool.not_eq_false, equalKeyValueT_iff, equalSlices_iff, not_not, ne_eq]
  tauto

theorem equalDataPoints_empty_iff {ν : Type} [DecidableEq ν] [GoRend ν]
    (a b : DataPoint ν) (cfg : config) :
    equalDataPoints a b cfg = [] ↔
      (a.attributes = b.attributes
        ∧ (cfg.ignoreTimestamp = true ∨ (a.startTime = b.startTime ∧ a.time = b.time))
        ∧ (cfg.ignoreValue = true ∨ a.value = b.value)
        ∧ (cfg.ignoreExemplars = true ∨
            diffSlices a.exemplars b.exemplars
              (fun x y => (equalExemplars x y cfg).isEmpty) = ([], []))) := by
  simp only [equalDataPoints, List.append_eq_nil, ifB_empty, ifFlag_empty, ifFlagF_empty, ifP_empty,
    Bool.not_eq_true', Bool.not_eq_false, compareDiff_eq_empty_iff, pair_eq_nil, not_not, ne_eq]
  tauto

theorem wrapReasons_empty (hdr : String) (r : List String) :
    (if r.length > 0 then hdr :: r else []) = [] ↔ r = [] := by
  cases r <;> simp

theorem equalExponentialBuckets_empty_iff (a b : ExponentialBucket) (cfg : config) :
    equalExponentialBuckets a b cfg = [] ↔ (a.offset = b.offset ∧ a.counts = b.counts) := by
  simp only [equalExponentialBuckets, List.append_eq_nil, ifB_empty, ifP_empty,
    Bool.not_eq_true', Bool.not_eq_false, equalSlices_iff, not_not, ne_eq]

theorem equalHistogramDataPoints_empty_iff {ν : Type} [DecidableEq ν] [GoRend ν]
    (a b : HistogramDataPoint ν) (cfg : config) :
    equalHistogramDataPoints a b cfg = [] ↔
      (a.attributes = b.attributes
        ∧ (cfg.ignoreTimestamp = true ∨ (a.startTime = b.startTime ∧ a.time = b.time))
        ∧ (cfg.ignoreValue = true ∨
            (a.count = b.count ∧ a.bounds = b.bounds ∧ a.bucketCounts = b.bucketCounts
              ∧ eqExtrema a.min b.min = true ∧ eqExtrema a.max b.max = true ∧ a.sum = b.sum))
        ∧ (cfg.ignoreExemplars = true ∨
            diffSlices a.exemplars b.exemplars
              (fun x y => (equalExemplars x y cfg).isEmpty) = ([], []))) := by
  simp only [equalHistogramDataPoints, List.append_eq_nil, ifB_empty, ifFlag_empty, ifFlagF_empty,
    ifP_empty, Bool.not_eq_true', Bool.not_eq_false, compareDiff_eq_empty_iff, pair_eq_nil,
    equalSlices_iff, not_not, ne_eq]
  tauto

theorem equalExponentialHistogramDataPoints_empty_iff {ν : Type} [DecidableEq ν] [GoRend ν]
    (a b : ExponentialHistogramDataPoint ν) (cfg : config) :
    equalExponentialHistogramDataPoints a b cfg = [] ↔
      (a.attributes = b.attributes
        ∧ (cfg.ignoreTimestamp = true ∨ (a.startTime = b.startTime ∧ a.time = b.time))
        ∧ (cfg.ignoreValue = true ∨
            (a.count = b.count ∧ eqExtrema a.min b.min = true ∧ eqExtrema a.max b.max = true
              ∧ a.sum = b.sum ∧ a.scale = b.scale ∧ a.zeroCount = b.zeroCount
              ∧ a.positiveBucket.offset = b.positiveBucket.offset
              ∧ a.positiveBucket.counts = b.positiveBucket.counts
              ∧ a.negativeBucket.offset = b.negativeBucket.offset
              ∧ a.negativeBucket.counts = b.negativeBucket.counts))
        ∧ (cfg.ignoreExemplars = true ∨
            diffSlices a.exemplars b.exemplars
              (fun x y => (equalExemplars x y cfg).isEmpty) = ([], []))) := by
  simp only [equalExponentialHistogramDataPoints, List.append_eq_nil, ifB_empty, ifFlag_empty,
    ifFlagF_empty, ifP_empty, Bool.not_eq_true', Bool.not_eq_false, compareDiff_eq_empty_iff,
    pair_eq_nil, equalExponentialBuckets_empty_iff, equalSlices_iff, not_not, ne_eq]
  tauto

theorem equalGauges_empty_iff {ν : Type} [DecidableEq ν] [GoRend ν]
    (a b : Gauge ν) (cfg : config) :
    equalGauges a b cfg = [] ↔
      diffSlices a.dataPoints b.dataPoints
        (fun x y => (equalDataPoints x y cfg).isEmpty) = ([], []) := by
  simp only [equalGauges, ifP_empty, compareDiff_eq_empty_iff, pair_eq_nil, not_not, ne_eq]

theorem equalSums_empty_iff {ν : Type} [DecidableEq ν] [GoRend ν]
    (a b : Sum ν) (cfg : config) :
    equalSums a b cfg = [] ↔
      (a.temporality = b.temporality ∧ a.isMonotonic = b.isMonotonic
        ∧ diffSlices a.dataPoints b.dataPoints
            (fun x y => (equalDataPoints x y cfg).isEmpty) = ([], [])) := by
  simp only [equalSums, List.append_eq_nil, ifP_empty, compareDiff_eq_empty_iff, pair_eq_nil,
    not_not, ne_eq]
  tauto

theorem equalHistograms_empty_iff {ν : Type} [DecidableEq ν] [GoRend ν]
    (a b : Histogram ν) (cfg : config) :
    equalHistograms a b cfg = [] ↔
      (a.temporality = b.temporality
        ∧ diffSlices a.dataPoints b.dataPoints
            (fun x y => (equalHistogramDataPoints x y cfg).isEmpty) = ([], [])) := by
  simp only [equalHistograms, List.append_eq_nil, ifP_empty, compareDiff_eq_empty_iff,
    pair_eq_nil, not_not, ne_eq]

theorem equalExponentialHistograms_empty_iff {ν : Type} [DecidableEq ν] [GoRend ν]
    (a b : ExponentialHistogram ν) (cfg : config) :
    equalExponentialHistograms a b cfg = [] ↔
      (a.temporality = b.temporality
        ∧ diffSlices a.dataPoints b.dataPoints
            (fun x y => (equalExponentialHistogramDataPoints x y cfg).isEmpty) = ([], [])) := by
  simp only [equalExponentialHistograms, List.append_eq_nil, ifP_empty, compareDiff_eq_empty_iff,
    pair_eq_nil, not_not, ne_eq]

theorem equalMetrics_empty_iff (a b : Metrics) (cfg : config) :
    equalMetrics a b cfg = [] ↔
      (a.name = b.name ∧ a.description = b.description ∧ a.unit = b.unit
        ∧ equalAggregations a.data b.data cfg = []) := by
  simp only [equalMetrics, List.append_eq_nil, ifP_empty, wrapReasons_empty, not_not, ne_eq]
  tauto

theorem equalScopeMetrics_empty_iff (a b : ScopeMetrics) (cfg : config) :
    equalScopeMetrics a b cfg = [] ↔
      (a.scope = b.scope
        ∧ diffSlices a.metrics b.metrics
            (fun x y => (equalMetrics x y cfg).isEmpty) = ([], [])) := by
  simp only [equalScopeMetrics, List.append_eq_nil, ifP_empty, compareDiff_eq_empty_iff,
    pair_eq_nil, not_not, ne_eq]

theorem equalResourceMetrics_empty_iff (a b : ResourceMetrics) (cfg : config) :
    equalResourceMetrics a b cfg = [] ↔
      (a.resource = b.resource
        ∧ diffSlices a.scopeMetrics b.scopeMetrics
            (fun x y => (equalScopeMetrics x y cfg).isEmpty) = ([], [])) := by
  simp only [equalResourceMetrics, List.append_eq_nil, ifP_empty, compareDiff_eq_empty_iff,
    pair_eq_nil, not_not, ne_eq]

theorem equalAggregations_empty_iff (a b : Aggregation) (cfg : config) :
    equalAggregations a b cfg = [] ↔
      (match a, b with
      | none, none => True
      | some (.gaugeInt v), some (.gaugeInt w) => equalGauges v w cfg = []
      | some (.gaugeFloat v), some (.gaugeFloat w) => equalGauges v w cfg = []
      | some (.sumInt v), some (.sumInt w) => equalSums v w cfg = []
      | some (.sumFloat v), some (.sumFloat w) => equalSums v w cfg = []
      | some (.histInt v), some (.histInt w) => equalHistograms v w cfg = []
      | some (.histFloat v), some (.histFloat w) => equalHistograms v w cfg = []
      | some (.expHistInt v), some (.expHistInt w) => equalExponentialHistograms v w cfg = []
      | some (.expHistFloat v), some (.expHistFloat w) => equalExponentialHistograms v w cfg = []
      | _, _ => False) := by
  match a, b with
  | none, none => simp [equalAggregations]
  | none, some bv => simp [equalAggregations]
  | some av, none => simp [equalAggregations]
  | some av, some bv =>
    cases av <;> cases bv <;>
      simp [equalAggregations, AggData.tyOf, wrapReasons_empty]
    split <;> simp

/-! Well-formedness per the spec's data model: the aggregation union is
closed, so a well-formed tree carries no foreign aggregation value. -/

/-- A known (non-foreign) aggregation variant. -/
def AggData.isKnown : AggData → Bool
  | .other _ => false
  | _ => true

/-- A well-formed aggregation payload: absent or a known variant. -/
def aggWF : Aggregation → Bool
  | none => true
  | some v => v.isKnown

/-- A well-formed metric: its payload is well-formed. -/
def Metrics.wf (m : Metrics) : Bool := aggWF m.data

/-- A well-formed scope metrics: all its metrics are. -/
def ScopeMetrics.wf (sm : ScopeMetrics) : Bool := sm.metrics.all Metrics.wf

/-- A well-formed resource metrics: all its scope metrics are. -/
def ResourceMetrics.wf (rm : ResourceMetrics) : Bool := rm.scopeMetrics.all ScopeMetrics.wf

/-! Reflexivity, symmetry and transitivity of the zero-reasons relation at
every comparison level. -/

theorem equalExemplars_refl {ν : Type} [DecidableEq ν] [GoRend ν] (x : Exemplar ν) (cfg : config) :
    equalExemplars x x cfg = [] := by
  rw [equalExemplars_empty_iff]
  exact ⟨rfl, Or.inr rfl, Or.inr rfl, rfl, rfl⟩

theorem equalExemplars_symmE {ν : Type} [DecidableEq ν] [GoRend ν] {a b : Exemplar ν} {cfg : config}
    (h : equalExemplars a b cfg = []) : equalExemplars b a cfg = [] := by
  rw [equalExemplars_empty_iff] at h ⊢
  obtain ⟨h1, h2, h3, h4, h5⟩ := h
  refine ⟨h1.symm, ?_, ?_, h4.symm, h5.symm⟩
  · rcases h2 with h | h
    · exact Or.inl h
    · exact Or.inr h.symm
  · rcases h3 with h | h
    · exact Or.inl h
    · exact Or.inr h.symm

theorem equalExemplars_transE {ν : Type} [DecidableEq ν] [GoRend ν] {a b c : Exemplar ν}
    {cfg : config} (hab : equalExemplars a b cfg = []) (hbc : equalExemplars b c cfg = []) :
    equalExemplars a c cfg = [] := by
  rw [equalExemplars_empty_iff] at hab hbc ⊢
  obtain ⟨a1, a2, a3, a4, a5⟩ := hab
  obtain ⟨b1, b2, b3, b4, b5⟩ := hbc
  refine ⟨a1.trans b1, ?_, ?_, a4.trans b4, a5.trans b5⟩
  · rcases a2 with h | h
    · exact Or.inl h
    · rcases b2 with h2 | h2
      · exact Or.inl h2
      · exact Or.inr (h.trans h2)
  · rcases a3 with h | h
    · exact Or.inl h
    · rcases b3 with h2 | h2
      · exact Or.inl h2
      · exact Or.inr (h.trans h2)

theorem exemplarPred_refl {ν : Type} [DecidableEq ν] [GoRend ν] (cfg : config)
    (x : Exemplar ν) : (equalExemplars x x cfg).isEmpty = true :=
  List.isEmpty_iff.mpr (equalExemplars_refl x cfg)

theorem exemplarPred_symm {ν : Type} [DecidableEq ν] [GoRend ν] (cfg : config)
    (u v : Exemplar ν) (h : (equalExemplars u v cfg).isEmpty = true) :
    (equalExemplars v u cfg).isEmpty = true :=
  List.isEmpty_iff.mpr (equalExemplars_symmE (List.isEmpty_iff.mp h))

theorem exemplarPred_trans {ν : Type} [DecidableEq ν] [GoRend ν] (cfg : config)
    (u v w : Exemplar ν) (h1 : (equalExemplars u v cfg).isEmpty = true)
    (h2 : (equalExemplars v w cfg).isEmpty = true) :
    (equalExemplars u w cfg).isEmpty = true :=
  List.isEmpty_iff.mpr (equalExemplars_transE (List.isEmpty_iff.mp h1) (List.isEmpty_iff.mp h2))

theorem equalDataPoints_refl {ν : Type} [DecidableEq ν] [GoRend ν] (x : DataPoint ν)
    (cfg : config) : equalDataPoints x x cfg = [] := by
  rw [equalDataPoints_empty_iff]
  exact ⟨rfl, Or.inr ⟨rfl, rfl⟩, Or.inr rfl,
    Or.inr (diffSlices_empty_refl (fun e _ => exemplarPred_refl cfg e))⟩

theorem equalDataPoints_symmE {ν : Type} [DecidableEq ν] [GoRend ν] {a b : DataPoint ν}
    {cfg : config} (h : equalDataPoints a b cfg = []) : equalDataPoints b a cfg = [] := by
  rw [equalDataPoints_empty_iff] at h ⊢
  obtain ⟨h1, h2, h3, h4⟩ := h
  refine ⟨h1.symm, ?_, ?_, ?_⟩
  · rcases h2 with h | ⟨hs, ht⟩
    · exact Or.inl h
    · exact Or.inr ⟨hs.symm, ht.symm⟩
  · rcases h3 with h | h
    · exact Or.inl h
    · exact Or.inr h.symm
  · rcases h4 with h | h
    · exact Or.inl h
    · exact Or.inr (diffSlices_empty_symm (exemplarPred_symm cfg) (exemplarPred_trans cfg) h)

theorem equalDataPoints_transE {ν : Type} [DecidableEq ν] [GoRend ν] {a b c : DataPoint ν}
    {cfg : config} (hab : equalDataPoints a b cfg = []) (hbc : equalDataPoints b c cfg = []) :
    equalDataPoints a c cfg = [] := by
  rw [equalDataPoints_empty_iff] at hab hbc ⊢
  obtain ⟨a1, a2, a3, a4⟩ := hab
  obtain ⟨b1, b2, b3, b4⟩ := hbc
  refine ⟨a1.trans b1, ?_, ?_, ?_⟩
  · rcases a2 with h | ⟨hs, ht⟩
    · exact Or.inl h
    · rcases b2 with h2 | ⟨hs2, ht2⟩
      · exact Or.inl h2
      · exact Or.inr ⟨hs.trans hs2, ht.trans ht2⟩
  · rcases a3 with h | h
    · exact Or.inl h
    · rcases b3 with h2 | h2
      · exact Or.inl h2
      · exact Or.inr (h.trans h2)
  · rcases a4 with h | h
    · exact Or.inl h
    · rcases b4 with h2 | h2
      · exact Or.inl h2
      · exact Or.inr (diffSlices_empty_trans (exemplarPred_symm cfg) (exemplarPred_trans cfg) h h2)

theorem dataPointPred_refl {ν : Type} [DecidableEq ν] [GoRend ν] (cfg : config)
    (x : DataPoint ν) : (equalDataPoints x x cfg).isEmpty = true :=
  List.isEmpty_iff.mpr (equalDataPoints_refl x cfg)

theorem dataPointPred_symm {ν : Type} [DecidableEq ν] [GoRend ν] (cfg : config)
    (u v : DataPoint ν) (h : (equalDataPoints u v cfg).isEmpty = true) :
    (equalDataPoints v u cfg).isEmpty = true :=
  List.isEmpty_iff.mpr (equalDataPoints_symmE (List.isEmpty_iff.mp h))

theorem dataPointPred_trans {ν : Type} [DecidableEq ν] [GoRend ν] (cfg : config)
    (u v w : DataPoint ν) (h1 : (equalDataPoints u v cfg).isEmpty = true)
    (h2 : (equalDataPoints v w cfg).isEmpty = true) :
    (equalDataPoints u w cfg).isEmpty = true :=
  List.isEmpty_iff.mpr (equalDataPoints_transE (List.isEmpty_iff.mp h1) (List.isEmpty_iff.mp h2))

theorem equalHistogramDataPoints_refl {ν : Type} [DecidableEq ν] [GoRend ν]
    (x : HistogramDataPoint ν) (cfg : config) : equalHistogramDataPoints x x cfg = [] := by
  rw [equalHistogramDataPoints_empty_iff]
  exact ⟨rfl, Or.inr ⟨rfl, rfl⟩,
    Or.inr ⟨rfl, rfl, rfl, eqExtrema_refl _, eqExtrema_refl _, rfl⟩,
    Or.inr (diffSlices_empty_refl (fun e _ => exemplarPred_refl cfg e))⟩

theorem equalHistogramDataPoints_symmE {ν : Type} [DecidableEq ν] [GoRend ν]
    {a b : HistogramDataPoint ν} {cfg : config}
    (h : equalHistogramDataPoints a b cfg = []) : equalHistogramDataPoints b a cfg = [] := by
  rw [equalHistogramDataPoints_empty_iff] at h ⊢
  obtain ⟨h1, h2, h3, h4⟩ := h
  refine ⟨h1.symm, ?_, ?_, ?_⟩
  · rcases h2 with h | ⟨hs, ht⟩
    · exact Or.inl h
    · exact Or.inr ⟨hs.symm, ht.symm⟩
  · rcases h3 with h | ⟨hc, hb, hbc, hmin, hmax, hsum⟩
    · exact Or.inl h
    · exact Or.inr ⟨hc.symm, hb.symm, hbc.symm, eqExtrema_symm hmin, eqExtrema_symm hmax, hsum.symm⟩
  · rcases h4 with h | h
    · exact Or.inl h
    · exact Or.inr (diffSlices_empty_symm (exemplarPred_symm cfg) (exemplarPred_trans cfg) h)

theorem equalHistogramDataPoints_transE {ν : Type} [DecidableEq ν] [GoRend ν]
    {a b c : HistogramDataPoint ν} {cfg : config}
    (hab : equalHistogramDataPoints a b cfg = []) (hbc : equalHistogramDataPoints b c cfg = []) :
    equalHistogramDataPoints a c cfg = [] := by
  rw [equalHistogramDataPoints_empty_iff] at hab hbc ⊢
  obtain ⟨a1, a2, a3, a4⟩ := hab
  obtain ⟨b1, b2, b3, b4⟩ := hbc
  refine ⟨a1.trans b1, ?_, ?_, ?_⟩
  · rcases a2 with h | ⟨hs, ht⟩
    · exact Or.inl h
    · rcases b2 with h2 | ⟨hs2, ht2⟩
      · exact Or.inl h2
      · exact Or.inr ⟨hs.trans hs2, ht.trans ht2⟩
  · rcases a3 with h | ⟨hc, hb, hbc2, hmin, hmax, hsum⟩
    · exact Or.inl h
    · rcases b3 with h2 | ⟨hc2, hb2, hbc3, hmin2, hmax2, hsum2⟩
      · exact Or.inl h2
      · exact Or.inr ⟨hc.trans hc2, hb.trans hb2, hbc2.trans hbc3,
          eqExtrema_trans hmin hmin2, eqExtrema_trans hmax hmax2, hsum.trans hsum2⟩
  · rcases a4 with h | h
    · exact Or.inl h
    · rcases b4 with h2 | h2
      · exact Or.inl h2
      · exact Or.inr (diffSlices_empty_trans (exemplarPred_symm cfg) (exemplarPred_trans cfg) h h2)

theorem histDPPred_refl {ν : Type} [DecidableEq ν] [GoRend ν] (cfg : config)
    (x : HistogramDataPoint ν) : (equalHistogramDataPoints x x cfg).isEmpty = true :=
  List.isEmpty_iff.mpr (equalHistogramDataPoints_refl x cfg)

theorem histDPPred_symm {ν : Type} [DecidableEq ν] [GoRend ν] (cfg : config)
    (u v : HistogramDataPoint ν) (h : (equalHistogramDataPoints u v cfg).isEmpty = true) :
    (equalHistogramDataPoints v u cfg).isEmpty = true :=
  List.isEmpty_iff.mpr (equalHistogramDataPoints_symmE (List.isEmpty_iff.mp h))

theorem histDPPred_trans {ν : Type} [DecidableEq ν] [GoRend ν] (cfg : config)
    (u v w : HistogramDataPoint ν) (h1 : (equalHistogramDataPoints u v cfg).isEmpty = true)
    (h2 : (equalHistogramDataPoints v w cfg).isEmpty = true) :
    (equalHistogramDataPoints u w cfg).isEmpty = true :=
  List.isEmpty_iff.mpr
    (equalHistogramDataPoints_transE (List.isEmpty_iff.mp h1) (List.isEmpty_iff.mp h2))

theorem equalExponentialHistogramDataPoints_refl {ν : Type} [DecidableEq ν] [GoRend ν]
    (x : ExponentialHistogramDataPoint ν) (cfg : config) :
    equalExponentialHistogramDataPoints x x cfg = [] := by
  rw [equalExponentialHistogramDataPoints_empty_iff]
  exact ⟨rfl, Or.inr ⟨rfl, rfl⟩,
    Or.inr ⟨rfl, eqExtrema_refl _, eqExtrema_refl _, rfl, rfl, rfl, rfl, rfl, rfl, rfl⟩,
    Or.inr (diffSlices_empty_refl (fun e _ => exemplarPred_refl cfg e))⟩

theorem equalExponentialHistogramDataPoints_symmE {ν : Type} [DecidableEq ν] [GoRend ν]
    {a b : ExponentialHistogramDataPoint ν} {cfg : config}
    (h : equalExponentialHistogramDataPoints a b cfg = []) :
    equalExponentialHistogramDataPoints b a cfg = [] := by
  rw [equalExponentialHistogramDataPoints_empty_iff] at h ⊢
  obtain ⟨h1, h2, h3, h4⟩ := h
  refine ⟨h1.symm, ?_, ?_, ?_⟩
  · rcases h2 with h | ⟨hs, ht⟩
    · exact Or.inl h
    · exact Or.inr ⟨hs.symm, ht.symm⟩
  · rcases h3 with h | ⟨hc, hmin, hmax, hsum, hsc, hz, hpo, hpc, hno, hnc⟩
    · exact Or.inl h
    · exact Or.inr ⟨hc.symm, eqExtrema_symm hmin, eqExtrema_symm hmax, hsum.symm, hsc.symm,
        hz.symm, hpo.symm, hpc.symm, hno.symm, hnc.symm⟩
  · rcases h4 with h | h
    · exact Or.inl h
    · exact Or.inr (diffSlices_empty_symm (exemplarPred_symm cfg) (exemplarPred_trans cfg) h)

theorem equalExponentialHistogramDataPoints_transE {ν : Type} [DecidableEq ν] [GoRend ν]
    {a b c : ExponentialHistogramDataPoint ν} {cfg : config}
    (hab : equalExponentialHistogramDataPoints a b cfg = [])
    (hbc : equalExponentialHistogramDataPoints b c cfg = []) :
    equalExponentialHistogramDataPoints a c cfg = [] := by
  rw [equalExponentialHistogramDataPoints_empty_iff] at hab hbc ⊢
  obtain ⟨a1, a2, a3, a4⟩ := hab
  obtain ⟨b1, b2, b3, b4⟩ := hbc
  refine ⟨a1.trans b1, ?_, ?_, ?_⟩
  · rcases a2 with h | ⟨hs, ht⟩
    · exact Or.inl h
    · rcases b2 with h2 | ⟨hs2, ht2⟩
      · exact Or.inl h2
      · exact Or.inr ⟨hs.trans hs2, ht.trans ht2⟩
  · rcases a3 with h | ⟨hc, hmin, hmax, hsum, hsc, hz, hpo, hpc, hno, hnc⟩
    · exact Or.inl h
    · rcases b3 with h2 | ⟨hc2, hmin2, hmax2, hsum2, hsc2, hz2, hpo2, hpc2, hno2, hnc2⟩
      · exact Or.inl h2
      · exact Or.inr ⟨hc.trans hc2, eqExtrema_trans hmin hmin2, eqExtrema_trans hmax hmax2,
          hsum.trans hsum2, hsc.trans hsc2, hz.trans hz2, hpo.trans hpo2, hpc.trans hpc2,
          hno.trans hno2, hnc.trans hnc2⟩
  · rcases a4 with h | h
    · exact Or.inl h
    · rcases b4 with h2 | h2
      · exact Or.inl h2
      · exact Or.inr (diffSlices_empty_trans (exemplarPred_symm cfg) (exemplarPred_trans cfg) h h2)

theorem expDPPred_refl {ν : Type} [DecidableEq ν] [GoRend ν] (cfg : config)
    (x : ExponentialHistogramDataPoint ν) :
    (equalExponentialHistogramDataPoints x x cfg).isEmpty = true :=
  List.isEmpty_iff.mpr (equalExponentialHistogramDataPoints_refl x cfg)

theorem expDPPred_symm {ν : Type} [DecidableEq ν] [GoRend ν] (cfg : config)
    (u v : ExponentialHistogramDataPoint ν)
    (h : (equalExponentialHistogramDataPoints u v cfg).isEmpty = true) :
    (equalExponentialHistogramDataPoints v u cfg).isEmpty = true :=
  List.isEmpty_iff.mpr (equalExponentialHistogramDataPoints_symmE (List.isEmpty_iff.mp h))

theorem expDPPred_trans {ν : Type} [DecidableEq ν] [GoRend ν] (cfg : config)
    (u v w : ExponentialHistogramDataPoint ν)
    (h1 : (equalExponentialHistogramDataPoints u v cfg).isEmpty = true)
    (h2 : (equalExponentialHistogramDataPoints v w cfg).isEmpty = true) :
    (equalExponentialHistogramDataPoints u w cfg).isEmpty = true :=
  List.isEmpty_iff.mpr
    (equalExponentialHistogramDataPoints_transE (List.isEmpty_iff.mp h1) (List.isEmpty_iff.mp h2))

theorem equalGauges_refl {ν : Type} [DecidableEq ν] [GoRend ν] (g : Gauge ν) (cfg : config) :
    equalGauges g g cfg = [] := by
  rw [equalGauges_empty_iff]
  exact diffSlices_empty_refl (fun d _ => dataPointPred_refl cfg d)

theorem equalGauges_symmE {ν : Type} [DecidableEq ν] [GoRend ν] {a b : Gauge ν} {cfg : config}
    (h : equalGauges a b cfg = []) : equalGauges b a cfg = [] := by
  rw [equalGauges_empty_iff] at h ⊢
  exact diffSlices_empty_symm (dataPointPred_symm cfg) (dataPointPred_trans cfg) h

theorem equalGauges_transE {ν : Type} [DecidableEq ν] [GoRend ν] {a b c : Gauge ν} {cfg : config}
    (h1 : equalGauges a b cfg = []) (h2 : equalGauges b c cfg = []) : equalGauges a c cfg = [] := by
  rw [equalGauges_empty_iff] at h1 h2 ⊢
  exact diffSlices_empty_trans (dataPointPred_symm cfg) (dataPointPred_trans cfg) h1 h2

theorem equalSums_refl {ν : Type} [DecidableEq ν] [GoRend ν] (s : Sum ν) (cfg : config) :
    equalSums s s cfg = [] := by
  rw [equalSums_empty_iff]
  exact ⟨rfl, rfl, diffSlices_empty_refl (fun d _ => dataPointPred_refl cfg d)⟩

theorem equalSums_symmE {ν : Type} [DecidableEq ν] [GoRend ν] {a b : Sum ν} {cfg : config}
    (h : equalSums a b cfg = []) : equalSums b a cfg = [] := by
  rw [equalSums_empty_iff] at h ⊢
  exact ⟨h.1.symm, h.2.1.symm,
    diffSlices_empty_symm (dataPointPred_symm cfg) (dataPointPred_trans cfg) h.2.2⟩

theorem equalSums_transE {ν : Type} [DecidableEq ν] [GoRend ν] {a b c : Sum ν} {cfg : config}
    (h1 : equalSums a b cfg = []) (h2 : equalSums b c cfg = []) : equalSums a c cfg = [] := by
  rw [equalSums_empty_iff] at h1 h2 ⊢
  exact ⟨h1.1.trans h2.1, h1.2.1.trans h2.2.1,
    diffSlices_empty_trans (dataPointPred_symm cfg) (dataPointPred_trans cfg) h1.2.2 h2.2.2⟩

theorem equalHistograms_refl {ν : Type} [DecidableEq ν] [GoRend ν] (h : Histogram ν)
    (cfg : config) : equalHistograms h h cfg = [] := by
  rw [equalHistograms_empty_iff]
  exact ⟨rfl, diffSlices_empty_refl (fun d _ => histDPPred_refl cfg d)⟩

theorem equalHistograms_symmE {ν : Type} [DecidableEq ν] [GoRend ν] {a b : Histogram ν}
    {cfg : config} (h : equalHistograms a b cfg = []) : equalHistograms b a cfg = [] := by
  rw [equalHistograms_empty_iff] at h ⊢
  exact ⟨h.1.symm, diffSlices_empty_symm (histDPPred_symm cfg) (histDPPred_trans cfg) h.2⟩

theorem equalHistograms_transE {ν : Type} [DecidableEq ν] [GoRend ν] {a b c : Histogram ν}
    {cfg : config} (h1 : equalHistograms a b cfg = []) (h2 : equalHistograms b c cfg = []) :
    equalHistograms a c cfg = [] := by
  rw [equalHistograms_empty_iff] at h1 h2 ⊢
  exact ⟨h1.1.trans h2.1,
    diffSlices_empty_trans (histDPPred_symm cfg) (histDPPred_trans cfg) h1.2 h2.2⟩

theorem equalExponentialHistograms_refl {ν : Type} [DecidableEq ν] [GoRend ν]
    (h : ExponentialHistogram ν) (cfg : config) : equalExponentialHistograms h h cfg = [] := by
  rw [equalExponentialHistograms_empty_iff]
  exact ⟨rfl, diffSlices_empty_refl (fun d _ => expDPPred_refl cfg d)⟩

theorem equalExponentialHistograms_symmE {ν : Type} [DecidableEq ν] [GoRend ν]
    {a b : ExponentialHistogram ν} {cfg : config}
    (h : equalExponentialHistograms a b cfg = []) : equalExponentialHistograms b a cfg = [] := by
  rw [equalExponentialHistograms_empty_iff] at h ⊢
  exact ⟨h.1.symm, diffSlices_empty_symm (expDPPred_symm cfg) (expDPPred_trans cfg) h.2⟩

theorem equalExponentialHistograms_transE {ν : Type} [DecidableEq ν] [GoRend ν]
    {a b c : ExponentialHistogram ν} {cfg : config}
    (h1 : equalExponentialHistograms a b cfg = []) (h2 : equalExponentialHistograms b c cfg = []) :
    equalExponentialHistograms a c cfg = [] := by
  rw [equalExponentialHistograms_empty_iff] at h1 h2 ⊢
  exact ⟨h1.1.trans h2.1,
    diffSlices_empty_trans (expDPPred_symm cfg) (expDPPred_trans cfg) h1.2 h2.2⟩

theorem equalAggregations_refl (a : Aggregation) (cfg : config) (hwf : aggWF a = true) :
    equalAggregations a a cfg = [] := by
  rw [equalAggregations_empty_iff]
  match a with
  | none => trivial
  | some (.gaugeInt g) => exact equalGauges_refl g cfg
  | some (.gaugeFloat g) => exact equalGauges_refl g cfg
  | some (.sumInt s) => exact equalSums_refl s cfg
  | some (.sumFloat s) => exact equalSums_refl s cfg
  | some (.histInt h) => exact equalHistograms_refl h cfg
  | some (.histFloat h) => exact equalHistograms_refl h cfg
  | some (.expHistInt h) => exact equalExponentialHistograms_refl h cfg
  | some (.expHistFloat h) => exact equalExponentialHistograms_refl h cfg
  | some (.other tag) => exact absurd hwf (by simp [aggWF, AggData.isKnown])

theorem equalAggregations_symmE {a b : Aggregation} {cfg : config}
    (h : equalAggregations a b cfg = []) : equalAggregations b a cfg = [] := by
  rw [equalAggregations_empty_iff] at h ⊢
  match a, b with
  | none, none => trivial
  | none, some bv => cases bv <;> exact h.elim
  | some av, none => cases av <;> exact h.elim
  | some av, some bv =>
    cases av <;> cases bv <;>
      first
      | exact h.elim
      | exact equalGauges_symmE h
      | exact equalSums_symmE h
      | exact equalHistograms_symmE h
      | exact equalExponentialHistograms_symmE h

theorem equalAggregations_transE {a b c : Aggregation} {cfg : config}
    (h1 : equalAggregations a b cfg = []) (h2 : equalAggregations b c cfg = []) :
    equalAggregations a c cfg = [] := by
  rw [equalAggregations_empty_iff] at h1 h2 ⊢
  match a, b, c with
  | none, none, none => trivial
  | none, none, some cv => cases cv <;> exact h2.elim
  | none, some bv, _ => cases bv <;> exact h1.elim
  | some av, none, _ => cases av <;> exact h1.elim
  | some av, some bv, none =>
    cases av <;> cases bv <;> first | exact h1.elim | exact h2.elim
  | some av, some bv, some cv =>
    cases av <;> cases bv <;> cases cv <;>
      first
      | exact h1.elim
      | exact h2.elim
      | exact equalGauges_transE h1 h2
      | exact equalSums_transE h1 h2
      | exact equalHistograms_transE h1 h2
      | exact equalExponentialHistograms_transE h1 h2

theorem equalMetrics_refl (m : Metrics) (cfg : config) (hwf : m.wf = true) :
    equalMetrics m m cfg = [] := by
  rw [equalMetrics_empty_iff]
  exact ⟨rfl, rfl, rfl, equalAggregations_refl m.data cfg hwf⟩

theorem equalMetrics_symmE {a b : Metrics} {cfg : config}
    (h : equalMetrics a b cfg = []) : equalMetrics b a cfg = [] := by
  rw [equalMetrics_empty_iff] at h ⊢
  exact ⟨h.1.symm, h.2.1.symm, h.2.2.1.symm, equalAggregations_symmE h.2.2.2⟩

theorem equalMetrics_transE {a b c : Metrics} {cfg : config}
    (h1 : equalMetrics a b cfg = []) (h2 : equalMetrics b c cfg = []) :
    equalMetrics a c cfg = [] := by
  rw [equalMetrics_empty_iff] at h1 h2 ⊢
  exact ⟨h1.1.trans h2.1, h1.2.1.trans h2.2.1, h1.2.2.1.trans h2.2.2.1,
    equalAggregations_transE h1.2.2.2 h2.2.2.2⟩

theorem metricsPred_symm (cfg : config) (u v : Metrics)
    (h : (equalMetrics u v cfg).isEmpty = true) : (equalMetrics v u cfg).isEmpty = true :=
  List.isEmpty_iff.mpr (equalMetrics_symmE (List.isEmpty_iff.mp h))

theorem metricsPred_trans (cfg : config) (u v w : Metrics)
    (h1 : (equalMetrics u v cfg).isEmpty = true) (h2 : (equalMetrics v w cfg).isEmpty = true) :
    (equalMetrics u w cfg).isEmpty = true :=
  List.isEmpty_iff.mpr (equalMetrics_transE (List.isEmpty_iff.mp h1) (List.isEmpty_iff.mp h2))

theorem equalScopeMetrics_refl (sm : ScopeMetrics) (cfg : config) (hwf : sm.wf = true) :
    equalScopeMetrics sm sm cfg = [] := by
  rw [equalScopeMetrics_empty_iff]
  refine ⟨rfl, diffSlices_empty_refl (fun m hm => ?_)⟩
  have hmwf : m.wf = true := by
    rw [ScopeMetrics.wf, List.all_eq_true] at hwf
    exact hwf m hm
  exact List.isEmpty_iff.mpr (equalMetrics_refl m cfg hmwf)

theorem equalScopeMetrics_symmE {a b : ScopeMetrics} {cfg : config}
    (h : equalScopeMetrics a b cfg = []) : equalScopeMetrics b a cfg = [] := by
  rw [equalScopeMetrics_empty_iff] at h ⊢
  exact ⟨h.1.symm, diffSlices_empty_symm (metricsPred_symm cfg) (metricsPred_trans cfg) h.2⟩

theorem equalScopeMetrics_transE {a b c : ScopeMetrics} {cfg : config}
    (h1 : equalScopeMetrics a b cfg = []) (h2 : equalScopeMetrics b c cfg = []) :
    equalScopeMetrics a c cfg = [] := by
  rw [equalScopeMetrics_empty_iff] at h1 h2 ⊢
  exact ⟨h1.1.trans h2.1,
    diffSlices_empty_trans (metricsPred_symm cfg) (metricsPred_trans cfg) h1.2 h2.2⟩

theorem scopePred_symm (cfg : config) (u v : ScopeMetrics)
    (h : (equalScopeMetrics u v cfg).isEmpty = true) :
    (equalScopeMetrics v u cfg).isEmpty = true :=
  List.isEmpty_iff.mpr (equalScopeMetrics_symmE (List.isEmpty_iff.mp h))

theorem scopePred_trans (cfg : config) (u v w : ScopeMetrics)
    (h1 : (equalScopeMetrics u v cfg).isEmpty = true)
    (h2 : (equalScopeMetrics v w cfg).isEmpty = true) :
    (equalScopeMetrics u w cfg).isEmpty = true :=
  List.isEmpty_iff.mpr
    (equalScopeMetrics_transE (List.isEmpty_iff.mp h1) (List.isEmpty_iff.mp h2))

theorem equalResourceMetrics_refl (rm : ResourceMetrics) (cfg : config) (hwf : rm.wf = true) :
    equalResourceMetrics rm rm cfg = [] := by
  rw [equalResourceMetrics_empty_iff]
  refine ⟨rfl, diffSlices_empty_refl (fun sm hsm => ?_)⟩
  have hsmwf : sm.wf = true := by
    rw [ResourceMetrics.wf, List.all_eq_true] at hwf
    exact hwf sm hsm
  exact List.isEmpty_iff.mpr (equalScopeMetrics_refl sm cfg hsmwf)

theorem equalResourceMetrics_symmE {a b : ResourceMetrics} {cfg : config}
    (h : equalResourceMetrics a b cfg = []) : equalResourceMetrics b a cfg = [] := by
  rw [equalResourceMetrics_empty_iff] at h ⊢
  exact ⟨h.1.symm, diffSlices_empty_symm (scopePred_symm cfg) (scopePred_trans cfg) h.2⟩

theorem equalResourceMetrics_transE {a b c : ResourceMetrics} {cfg : config}
    (h1 : equalResourceMetrics a b cfg = []) (h2 : equalResourceMetrics b c cfg = []) :
    equalResourceMetrics a c cfg = [] := by
  rw [equalResourceMetrics_empty_iff] at h1 h2 ⊢
  exact ⟨h1.1.trans h2.1,
    diffSlices_empty_trans (scopePred_symm cfg) (scopePred_trans cfg) h1.2 h2.2⟩

/-! The claims. -/

/-- C1: `diffSlices` computes exactly greedy first-available matching
(each element of `A` in order is matched to the first not-yet-consumed
element of `B` satisfying the predicate, which is then consumed, or else
appended to `extraA`; never-consumed elements of `B` are `extraB`), and a
collection level compares equal exactly when both returned lists are
empty (shown for the diff formatter, the Gauge data-point collection and
the ResourceMetrics scope-metrics collection). -/
theorem diffSlices_greedy_and_collection_equality :
    (∀ (α : Type) (a b : List α) (eq : α → α → Bool), diffSlices a b eq = greedyDiff eq a b)
    ∧ (∀ (α : Type) (inst : GoRend α) (ea eb : List α),
        compareDiff ea eb = "" ↔ (ea = [] ∧ eb = []))
    ∧ (∀ (ν : Type) (i1 : DecidableEq ν) (i2 : GoRend ν) (cfg : config) (a b : Gauge ν),
        equalGauges a b cfg = [] ↔
          diffSlices a.dataPoints b.dataPoints
            (fun x y => (equalDataPoints x y cfg).isEmpty) = ([], []))
    ∧ (∀ (cfg : config) (a b : ResourceMetrics),
        equalResourceMetrics a b cfg = [] ↔
          (a.resource = b.resource ∧
            diffSlices a.scopeMetrics b.scopeMetrics
              (fun x y => (equalScopeMetrics x y cfg).isEmpty) = ([], []))) :=
  ⟨fun _ a b eq => diffSlices_eq_greedyDiff a b eq,
    fun _ _ ea eb => compareDiff_eq_empty_iff ea eb,
    fun _ _ _ cfg a b => equalGauges_empty_iff a b cfg,
    fun cfg a b => equalResourceMetrics_empty_iff a b cfg⟩

/-- Witness for C1 at a concrete input. -/
theorem diffSlices_greedy_and_collection_equality_witness :
    diffSlices [1, 2, 2] [2, 1] (fun x y : Nat => x == y) =
      greedyDiff (fun x y : Nat => x == y) [1, 2, 2] [2, 1] :=
  diffSlices_greedy_and_collection_equality.1 Nat [1, 2, 2] [2, 1] (fun x y : Nat => x == y)

/-- C3: `eqExtrema` equality semantics (both absent ⇒ equal; exactly one
absent ⇒ unequal regardless of value; both present ⇒ value equality), and
it is the equality deciding the Min and Max fields of histogram and
exponential-histogram data points when values are not ignored. -/
theorem eqExtrema_semantics :
    (∀ (ν : Type) [DecidableEq ν] (a b : Extrema ν),
      (a.valid = false → b.valid = false → eqExtrema a b = true)
      ∧ (a.valid = true → b.valid = false → eqExtrema a b = false)
      ∧ (a.valid = false → b.valid = true → eqExtrema a b = false)
      ∧ (a.valid = true → b.valid = true → (eqExtrema a b = true ↔ a.value = b.value)))
    ∧ (∀ (ν : Type) [DecidableEq ν] [GoRend ν] (cfg : config) (a b : HistogramDataPoint ν),
        cfg.ignoreValue = false → eqExtrema a.min b.min = false →
          equalHistogramDataPoints a b cfg ≠ [])
    ∧ (∀ (ν : Type) [DecidableEq ν] [GoRend ν] (cfg : config) (a b : HistogramDataPoint ν),
        cfg.ignoreValue = false → eqExtrema a.max b.max = false →
          equalHistogramDataPoints a b cfg ≠ [])
    ∧ (∀ (ν : Type) [DecidableEq ν] [GoRend ν] (cfg : config)
        (a b : ExponentialHistogramDataPoint ν),
        cfg.ignoreValue = false → eqExtrema a.min b.min = false →
          equalExponentialHistogramDataPoints a b cfg ≠ [])
    ∧ (∀ (ν : Type) [DecidableEq ν] [GoRend ν] (cfg : config)
        (a b : ExponentialHistogramDataPoint ν),
        cfg.ignoreValue = false → eqExtrema a.max b.max = false →
          equalExponentialHistogramDataPoints a b cfg ≠ []) := by
  refine ⟨fun ν _ a b => ⟨?_, ?_, ?_, ?_⟩, ?_, ?_, ?_, ?_⟩
  · intro ha hb
    rw [eqExtrema_iff]
    exact Or.inl ⟨ha, hb⟩
  · intro ha hb
    rw [Bool.eq_false_iff, Ne, eqExtrema_iff]
    rintro (⟨h1, h2⟩ | ⟨h1, h2, h3⟩) <;> simp_all
  · intro ha hb
    rw [Bool.eq_false_iff, Ne, eqExtrema_iff]
    rintro (⟨h1, h2⟩ | ⟨h1, h2, h3⟩) <;> simp_all
  · intro ha hb
    rw [eqExtrema_iff]
    simp [ha, hb]
  · intro ν _ _ cfg a b hv hmin habs
    rw [equalHistogramDataPoints_empty_iff] at habs
    rcases habs.2.2.1 with h | h
    · exact absurd h (by simp [hv])
    · exact absurd h.2.2.2.1 (by simp [hmin])
  · intro ν _ _ cfg a b hv hmax habs
    rw [equalHistogramDataPoints_empty_iff] at habs
    rcases habs.2.2.1 with h | h
    · exact absurd h (by simp [hv])
    · exact absurd h.2.2.2.2.1 (by simp [hmax])
  · intro ν _ _ cfg a b hv hmin habs
    rw [equalExponentialHistogramDataPoints_empty_iff] at habs
    rcases habs.2.2.1 with h | h
    · exact absurd h (by simp [hv])
    · exact absurd h.2.1 (by simp [hmin])
  · intro ν _ _ cfg a b hv hmax habs
    rw [equalExponentialHistogramDataPoints_empty_iff] at habs
    rcases habs.2.2.1 with h | h
    · exact absurd h (by simp [hv])
    · exact absurd h.2.2.1 (by simp [hmax])

/-- Witness for C3 at concrete inputs: two absent extrema are equal, an
absent minimum differs from a present zero minimum, and the Min check
fires on concrete histogram data points. -/
theorem eqExtrema_semantics_witness :
    eqExtrema (⟨3, false⟩ : Extrema Int) (⟨7, false⟩ : Extrema Int) = true
    ∧ eqExtrema (⟨0, true⟩ : Extrema Int) (⟨9, false⟩ : Extrema Int) = false
    ∧ equalHistogramDataPoints
        (⟨⟨[]⟩, 0, 0, 1, [], [1], ⟨0, false⟩, ⟨0, false⟩, 4, []⟩ : HistogramDataPoint Int)
        (⟨⟨[]⟩, 0, 0, 1, [], [1], ⟨0, true⟩, ⟨0, false⟩, 4, []⟩ : HistogramDataPoint Int)
        ⟨false, false, false⟩ ≠ [] :=
  ⟨(eqExtrema_semantics.1 Int ⟨3, false⟩ ⟨7, false⟩).1 rfl rfl,
    (eqExtrema_semantics.1 Int ⟨0, true⟩ ⟨9, false⟩).2.1 rfl rfl,
    eqExtrema_semantics.2.1 Int ⟨false, false, false⟩
      ⟨⟨[]⟩, 0, 0, 1, [], [1], ⟨0, false⟩, ⟨0, false⟩, 4, []⟩
      ⟨⟨[]⟩, 0, 0, 1, [], [1], ⟨0, true⟩, ⟨0, false⟩, 4, []⟩ rfl (by decide)⟩

/-- C10: the matching built by `diffSlices` is injective into `B`: the
same number of elements is matched on each side
(`len(A) + len(extraB) = len(B) + len(extraA)`), the unmatched elements
are order-preserving subsequences of their originals, and length-mismatched
inputs always leave at least one unmatched list non-empty. -/
theorem diffSlices_matching_invariants :
    ∀ (α : Type) (a b : List α) (eq : α → α → Bool),
      (a.length + (diffSlices a b eq).2.length = b.length + (diffSlices a b eq).1.length)
      ∧ (diffSlices a b eq).1.Sublist a
      ∧ (diffSlices a b eq).2.Sublist b
      ∧ (a.length ≠ b.length →
          ((diffSlices a b eq).1 ≠ [] ∨ (diffSlices a b eq).2 ≠ [])) := by
  intro α a b eq
  rw [diffSlices_eq_greedyDiff]
  refine ⟨greedy_length eq a b, greedy_extraA_sublist eq a b, greedy_extraB_sublist eq a b, ?_⟩
  intro hne
  by_contra hboth
  push_neg at hboth
  have hlen := greedy_length eq a b
  rw [hboth.1, hboth.2] at hlen
  simp at hlen
  exact hne hlen

/-- Witness for C10 at a concrete length-mismatched input. -/
theorem diffSlices_matching_invariants_witness :
    (diffSlices [0, 1] [0] (fun x y : Nat => x == y)).1 ≠ [] ∨
      (diffSlices [0, 1] [0] (fun x y : Nat => x == y)).2 ≠ [] :=
  (diffSlices_matching_invariants Nat [0, 1] [0] (fun x y : Nat => x == y)).2.2.2 (by decide)

/-- C5: reflexivity: comparing a well-formed entity against itself yields
an empty reason list at every level and under every ignore-policy
(well-formedness only constrains the aggregation payloads to the closed
variant set). -/
theorem compare_reflexivity :
    (∀ (ν : Type) [DecidableEq ν] [GoRend ν] (cfg : config) (x : Exemplar ν),
        equalExemplars x x cfg = [])
    ∧ (∀ (ν : Type) [DecidableEq ν] [GoRend ν] (cfg : config) (x : DataPoint ν),
        equalDataPoints x x cfg = [])
    ∧ (∀ (ν : Type) [DecidableEq ν] [GoRend ν] (cfg : config) (x : HistogramDataPoint ν),
        equalHistogramDataPoints x x cfg = [])
    ∧ (∀ (ν : Type) [DecidableEq ν] [GoRend ν] (cfg : config)
        (x : ExponentialHistogramDataPoint ν), equalExponentialHistogramDataPoints x x cfg = [])
    ∧ (∀ (ν : Type) [DecidableEq ν] [GoRend ν] (cfg : config) (x : Gauge ν),
        equalGauges x x cfg = [])
    ∧ (∀ (ν : Type) [DecidableEq ν] [GoRend ν] (cfg : config) (x : Sum ν),
        equalSums x x cfg = [])
    ∧ (∀ (ν : Type) [DecidableEq ν] [GoRend ν] (cfg : config) (x : Histogram ν),
        equalHistograms x x cfg = [])
    ∧ (∀ (ν : Type) [DecidableEq ν] [GoRend ν] (cfg : config) (x : ExponentialHistogram ν),
        equalExponentialHistograms x x cfg = [])
    ∧ (∀ (cfg : config) (a : Aggregation), aggWF a = true → equalAggregations a a cfg = [])
    ∧ (∀ (cfg : config) (m : Metrics), m.wf = true → equalMetrics m m cfg = [])
    ∧ (∀ (cfg : config) (sm : ScopeMetrics), sm.wf = true → equalScopeMetrics sm sm cfg = [])
    ∧ (∀ (cfg : config) (rm : ResourceMetrics), rm.wf = true →
        equalResourceMetrics rm rm cfg = []) :=
  ⟨fun _ _ _ cfg x => equalExemplars_refl x cfg,
    fun _ _ _ cfg x => equalDataPoints_refl x cfg,
    fun _ _ _ cfg x => equalHistogramDataPoints_refl x cfg,
    fun _ _ _ cfg x => equalExponentialHistogramDataPoints_refl x cfg,
    fun _ _ _ cfg x => equalGauges_refl x cfg,
    fun _ _ _ cfg x => equalSums_refl x cfg,
    fun _ _ _ cfg x => equalHistograms_refl x cfg,
    fun _ _ _ cfg x => equalExponentialHistograms_refl x cfg,
    fun cfg a hwf => equalAggregations_refl a cfg hwf,
    fun cfg m hwf => equalMetrics_refl m cfg hwf,
    fun cfg sm hwf => equalScopeMetrics_refl sm cfg hwf,
    fun cfg rm hwf => equalResourceMetrics_refl rm cfg hwf⟩

/-- Witness for C5: a concrete well-formed resource metrics tree compares
equal to itself. -/
theorem compare_reflexivity_witness :
    ResourceMetrics.wf
      ⟨⟨⟨[⟨"r", Value.stringValue "x"⟩]⟩⟩,
        [⟨⟨"scope", "v1", "url"⟩,
          [⟨"m", "d", "u",
            some (AggData.sumInt
              ⟨[⟨⟨[⟨"k", Value.int64Value 3⟩]⟩, 1, 2, 5,
                [⟨[⟨"f", Value.boolValue true⟩], 3, 7, [1], [2]⟩]⟩],
                Temporality.cumulative, true⟩)⟩]⟩]⟩ = true
    ∧ equalResourceMetrics
        ⟨⟨⟨[⟨"r", Value.stringValue "x"⟩]⟩⟩,
          [⟨⟨"scope", "v1", "url"⟩,
            [⟨"m", "d", "u",
              some (AggData.sumInt
                ⟨[⟨⟨[⟨"k", Value.int64Value 3⟩]⟩, 1, 2, 5,
                  [⟨[⟨"f", Value.boolValue true⟩], 3, 7, [1], [2]⟩]⟩],
                  Temporality.cumulative, true⟩)⟩]⟩]⟩
        ⟨⟨⟨[⟨"r", Value.stringValue "x"⟩]⟩⟩,
          [⟨⟨"scope", "v1", "url"⟩,
            [⟨"m", "d", "u",
              some (AggData.sumInt
                ⟨[⟨⟨[⟨"k", Value.int64Value 3⟩]⟩, 1, 2, 5,
                  [⟨[⟨"f", Value.boolValue true⟩], 3, 7, [1], [2]⟩]⟩],
                  Temporality.cumulative, true⟩)⟩]⟩]⟩
        ⟨true, false, false⟩ = [] :=
  ⟨by decide,
    compare_reflexivity.2.2.2.2.2.2.2.2.2.2.2 ⟨true, false, false⟩
      ⟨⟨⟨[⟨"r", Value.stringValue "x"⟩]⟩⟩,
        [⟨⟨"scope", "v1", "url"⟩,
          [⟨"m", "d", "u",
            some (AggData.sumInt
              ⟨[⟨⟨[⟨"k", Value.int64Value 3⟩]⟩, 1, 2, 5,
                [⟨[⟨"f", Value.boolValue true⟩], 3, 7, [1], [2]⟩]⟩],
                Temporality.cumulative, true⟩)⟩]⟩]⟩ (by decide)⟩

/-- C7: symmetry of detection: whenever the comparison of `a` against `b`
reports at least one reason, the comparison of `b` against `a` also
reports at least one reason, at every comparison level and under every
policy. -/
theorem compare_symmetry_of_detection :
    (∀ (ν : Type) [DecidableEq ν] [GoRend ν] (cfg : config) (a b : Exemplar ν),
        equalExemplars a b cfg ≠ [] → equalExemplars b a cfg ≠ [])
    ∧ (∀ (ν : Type) [DecidableEq ν] [GoRend ν] (cfg : config) (a b : DataPoint ν),
        equalDataPoints a b cfg ≠ [] → equalDataPoints b a cfg ≠ [])
    ∧ (∀ (ν : Type) [DecidableEq ν] [GoRend ν] (cfg : config) (a b : HistogramDataPoint ν),
        equalHistogramDataPoints a b cfg ≠ [] → equalHistogramDataPoints b a cfg ≠ [])
    ∧ (∀ (ν : Type) [DecidableEq ν] [GoRend ν] (cfg : config)
        (a b : ExponentialHistogramDataPoint ν),
        equalExponentialHistogramDataPoints a b cfg ≠ [] →
          equalExponentialHistogramDataPoints b a cfg ≠ [])
    ∧ (∀ (ν : Type) [DecidableEq ν] [GoRend ν] (cfg : config) (a b : Gauge ν),
        equalGauges a b cfg ≠ [] → equalGauges b a cfg ≠ [])
    ∧ (∀ (ν : Type) [DecidableEq ν] [GoRend ν] (cfg : config) (a b : Sum ν),
        equalSums a b cfg ≠ [] → equalSums b a cfg ≠ [])
    ∧ (∀ (ν : Type) [DecidableEq ν] [GoRend ν] (cfg : config) (a b : Histogram ν),
        equalHistograms a b cfg ≠ [] → equalHistograms b a cfg ≠ [])
    ∧ (∀ (ν : Type) [DecidableEq ν] [GoRend ν] (cfg : config) (a b : ExponentialHistogram ν),
        equalExponentialHistograms a b cfg ≠ [] → equalExponentialHistograms b a cfg ≠ [])
    ∧ (∀ (cfg : config) (a b : Aggregation),
        equalAggregations a b cfg ≠ [] → equalAggregations b a cfg ≠ [])
    ∧ (∀ (cfg : config) (a b : Metrics), equalMetrics a b cfg ≠ [] → equalMetrics b a cfg ≠ [])
    ∧ (∀ (cfg : config) (a b : ScopeMetrics),
        equalScopeMetrics a b cfg ≠ [] → equalScopeMetrics b a cfg ≠ [])
    ∧ (∀ (cfg : config) (a b : ResourceMetrics),
        equalResourceMetrics a b cfg ≠ [] → equalResourceMetrics b a cfg ≠ []) :=
  ⟨fun _ _ _ _ _ _ h habs => h (equalExemplars_symmE habs),
    fun _ _ _ _ _ _ h habs => h (equalDataPoints_symmE habs),
    fun _ _ _ _ _ _ h habs => h (equalHistogramDataPoints_symmE habs),
    fun _ _ _ _ _ _ h habs => h (equalExponentialHistogramDataPoints_symmE habs),
    fun _ _ _ _ _ _ h habs => h (equalGauges_symmE habs),
    fun _ _ _ _ _ _ h habs => h (equalSums_symmE habs),
    fun _ _ _ _ _ _ h habs => h (equalHistograms_symmE habs),
    fun _ _ _ _ _ _ h habs => h (equalExponentialHistograms_symmE habs),
    fun _ _ _ h habs => h (equalAggregations_symmE habs),
    fun _ _ _ h habs => h (equalMetrics_symmE habs),
    fun _ _ _ h habs => h (equalScopeMetrics_symmE habs),
    fun _ _ _ h habs => h (equalResourceMetrics_symmE habs)⟩

/-- Witness for C7: two concrete resource metrics differing in their
resource are detected as unequal in both comparison orders. -/
theorem compare_symmetry_of_detection_witness :
    equalResourceMetrics ⟨⟨⟨[⟨"r", Value.boolValue true⟩]⟩⟩, []⟩ ⟨⟨⟨[]⟩⟩, []⟩
      ⟨false, false, false⟩ ≠ [] :=
  compare_symmetry_of_detection.2.2.2.2.2.2.2.2.2.2.2 ⟨false, false, false⟩
    ⟨⟨⟨[]⟩⟩, []⟩ ⟨⟨⟨[⟨"r", Value.boolValue true⟩]⟩⟩, []⟩ (by decide)

/-- C6: permuting the ScopeMetrics of a ResourceMetrics, the Metrics of a
ScopeMetrics or the DataPoints of any aggregation does not change whether
the comparison reports zero reasons, whereas permuting
`ExponentialBucket.Counts`, `HistogramDataPoint.Bounds` or
`HistogramDataPoint.BucketCounts` can change the outcome (ordered
sequence semantics), shown by concrete instances. -/
theorem compare_order_independence :
    (∀ (cfg : config) (a : ResourceMetrics) (r : Resource) (sms sms2 : List ScopeMetrics),
        sms.Perm sms2 →
        (equalResourceMetrics a ⟨r, sms⟩ cfg = [] ↔ equalResourceMetrics a ⟨r, sms2⟩ cfg = []))
    ∧ (∀ (cfg : config) (r : Resource) (sms sms2 : List ScopeMetrics) (b : ResourceMetrics),
        sms.Perm sms2 →
        (equalResourceMetrics ⟨r, sms⟩ b cfg = [] ↔ equalResourceMetrics ⟨r, sms2⟩ b cfg = []))
    ∧ (∀ (cfg : config) (a : ScopeMetrics) (s : Scope) (ms ms2 : List Metrics),
        ms.Perm ms2 →
        (equalScopeMetrics a ⟨s, ms⟩ cfg = [] ↔ equalScopeMetrics a ⟨s, ms2⟩ cfg = []))
    ∧ (∀ (ν : Type) [DecidableEq ν] [GoRend ν] (cfg : config) (a b : Gauge ν)
        (dps2 : List (DataPoint ν)), b.dataPoints.Perm dps2 →
        (equalGauges a b cfg = [] ↔ equalGauges a ⟨dps2⟩ cfg = []))
    ∧ (∀ (ν : Type) [DecidableEq ν] [GoRend ν] (cfg : config) (a b : Sum ν)
        (dps2 : List (DataPoint ν)), b.dataPoints.Perm dps2 →
        (equalSums a b cfg = [] ↔
          equalSums a ⟨dps2, b.temporality, b.isMonotonic⟩ cfg = []))
    ∧ (∀ (ν : Type) [DecidableEq ν] [GoRend ν] (cfg : config) (a b : Histogram ν)
        (dps2 : List (HistogramDataPoint ν)), b.dataPoints.Perm dps2 →
        (equalHistograms a b cfg = [] ↔ equalHistograms a ⟨dps2, b.temporality⟩ cfg = []))
    ∧ (∀ (ν : Type) [DecidableEq ν] [GoRend ν] (cfg : config) (a b : ExponentialHistogram ν)
        (dps2 : List (ExponentialHistogramDataPoint ν)), b.dataPoints.Perm dps2 →
        (equalExponentialHistograms a b cfg = [] ↔
          equalExponentialHistograms a ⟨dps2, b.temporality⟩ cfg = []))
    ∧ (equalExponentialBuckets ⟨0, [1, 2]⟩ ⟨0, [1, 2]⟩ ⟨false, false, false⟩ = []
        ∧ List.Perm [1, 2] [2, 1]
        ∧ equalExponentialBuckets ⟨0, [1, 2]⟩ ⟨0, [2, 1]⟩ ⟨false, false, false⟩ ≠ [])
    ∧ (equalHistogramDataPoints
          (⟨⟨[]⟩, 0, 0, 2, [⟨1⟩, ⟨2⟩], [1, 2], ⟨0, false⟩, ⟨0, false⟩, 7, []⟩ :
            HistogramDataPoint Int)
          ⟨⟨[]⟩, 0, 0, 2, [⟨1⟩, ⟨2⟩], [1, 2], ⟨0, false⟩, ⟨0, false⟩, 7, []⟩
          ⟨false, false, false⟩ = []
        ∧ List.Perm [(⟨1⟩ : Float64), ⟨2⟩] [⟨2⟩, ⟨1⟩]
        ∧ equalHistogramDataPoints
            (⟨⟨[]⟩, 0, 0, 2, [⟨1⟩, ⟨2⟩], [1, 2], ⟨0, false⟩, ⟨0, false⟩, 7, []⟩ :
              HistogramDataPoint Int)
            ⟨⟨[]⟩, 0, 0, 2, [⟨2⟩, ⟨1⟩], [1, 2], ⟨0, false⟩, ⟨0, false⟩, 7, []⟩
            ⟨false, false, false⟩ ≠ [])
    ∧ (List.Perm [1, 2] [2, 1]
        ∧ equalHistogramDataPoints
            (⟨⟨[]⟩, 0, 0, 2, [⟨1⟩, ⟨2⟩], [1, 2], ⟨0, false⟩, ⟨0, false⟩, 7, []⟩ :
              HistogramDataPoint Int)
            ⟨⟨[]⟩, 0, 0, 2, [⟨1⟩, ⟨2⟩], [2, 1], ⟨0, false⟩, ⟨0, false⟩, 7, []⟩
            ⟨false, false, false⟩ ≠ []) := by
  refine ⟨?_, ?_, ?_, ?_, ?_, ?_, ?_, by decide, by decide, by decide⟩
  · intro cfg a r sms sms2 hperm
    rw [equalResourceMetrics_empty_iff, equalResourceMetrics_empty_iff]
    exact and_congr Iff.rfl
      (diffSlices_empty_perm_right (scopePred_symm cfg) (scopePred_trans cfg) hperm)
  · intro cfg r sms sms2 b hperm
    rw [equalResourceMetrics_empty_iff, equalResourceMetrics_empty_iff]
    exact and_congr Iff.rfl
      (diffSlices_empty_perm_left (scopePred_symm cfg) (scopePred_trans cfg) hperm)
  · intro cfg a s ms ms2 hperm
    rw [equalScopeMetrics_empty_iff, equalScopeMetrics_empty_iff]
    exact and_congr Iff.rfl
      (diffSlices_empty_perm_right (metricsPred_symm cfg) (metricsPred_trans cfg) hperm)
  · intro ν _ _ cfg a b dps2 hperm
    rw [equalGauges_empty_iff, equalGauges_empty_iff]
    exact diffSlices_empty_perm_right (dataPointPred_symm cfg) (dataPointPred_trans cfg) hperm
  · intro ν _ _ cfg a b dps2 hperm
    rw [equalSums_empty_iff, equalSums_empty_iff]
    exact and_congr Iff.rfl (and_congr Iff.rfl
      (diffSlices_empty_perm_right (dataPointPred_symm cfg) (dataPointPred_trans cfg) hperm))
  · intro ν _ _ cfg a b dps2 hperm
    rw [equalHistograms_empty_iff, equalHistograms_empty_iff]
    exact and_congr Iff.rfl
      (diffSlices_empty_perm_right (histDPPred_symm cfg) (histDPPred_trans cfg) hperm)
  · intro ν _ _ cfg a b dps2 hperm
    rw [equalExponentialHistograms_empty_iff, equalExponentialHistograms_empty_iff]
    exact and_congr Iff.rfl
      (diffSlices_empty_perm_right (expDPPred_symm cfg) (expDPPred_trans cfg) hperm)

/-- Witness for C6: permutation invariance applied to a concrete
two-element ScopeMetrics permutation. -/
theorem compare_order_independence_witness :
    equalResourceMetrics ⟨⟨⟨[]⟩⟩, [⟨⟨"a", "", ""⟩, []⟩, ⟨⟨"b", "", ""⟩, []⟩]⟩
        ⟨⟨⟨[]⟩⟩, [⟨⟨"a", "", ""⟩, []⟩, ⟨⟨"b", "", ""⟩, []⟩]⟩ ⟨false, false, false⟩ = [] ↔
      equalResourceMetrics ⟨⟨⟨[]⟩⟩, [⟨⟨"a", "", ""⟩, []⟩, ⟨⟨"b", "", ""⟩, []⟩]⟩
        ⟨⟨⟨[]⟩⟩, [⟨⟨"b", "", ""⟩, []⟩, ⟨⟨"a", "", ""⟩, []⟩]⟩ ⟨false, false, false⟩ = [] :=
  compare_order_independence.1 ⟨false, false, false⟩
    ⟨⟨⟨[]⟩⟩, [⟨⟨"a", "", ""⟩, []⟩, ⟨⟨"b", "", ""⟩, []⟩]⟩ ⟨⟨[]⟩⟩
    [⟨⟨"a", "", ""⟩, []⟩, ⟨⟨"b", "", ""⟩, []⟩] [⟨⟨"b", "", ""⟩, []⟩, ⟨⟨"a", "", ""⟩, []⟩]
    (by decide)

/-- C2: the aggregation comparison first checks presence (absent/absent is
equal; exactly one absent yields exactly one reason), then requires the
identical concrete variant (a `reflect.TypeOf` mismatch yields exactly the
one type-mismatch reason, with no recursion into data points), and only
on an identical variant invokes the variant-specific comparator. -/
theorem equalAggregations_dispatch :
    (∀ cfg : config, equalAggregations none none cfg = [])
    ∧ (∀ (cfg : config) (bv : AggData), (equalAggregations none (some bv) cfg).length = 1)
    ∧ (∀ (cfg : config) (av : AggData), (equalAggregations (some av) none cfg).length = 1)
    ∧ (∀ (cfg : config) (av bv : AggData), av.tyOf ≠ bv.tyOf →
        equalAggregations (some av) (some bv) cfg =
          ["Aggregation types not equal:\nexpected: " ++ rend av.tyOf
            ++ "\nactual: " ++ rend bv.tyOf])
    ∧ (∀ (cfg : config) (v w : Gauge Int),
        equalAggregations (some (AggData.gaugeInt v)) (some (AggData.gaugeInt w)) cfg =
          (if (equalGauges v w cfg).length > 0
            then "Gauge[int64] not equal:" :: equalGauges v w cfg else []))
    ∧ (∀ (cfg : config) (v w : Gauge Float64),
        equalAggregations (some (AggData.gaugeFloat v)) (some (AggData.gaugeFloat w)) cfg =
          (if (equalGauges v w cfg).length > 0
            then "Gauge[float64] not equal:" :: equalGauges v w cfg else []))
    ∧ (∀ (cfg : config) (v w : Sum Int),
        equalAggregations (some (AggData.sumInt v)) (some (AggData.sumInt w)) cfg =
          (if (equalSums v w cfg).length > 0
            then "Sum[int64] not equal:" :: equalSums v w cfg else []))
    ∧ (∀ (cfg : config) (v w : Sum Float64),
        equalAggregations (some (AggData.sumFloat v)) (some (AggData.sumFloat w)) cfg =
          (if (equalSums v w cfg).length > 0
            then "Sum[float64] not equal:" :: equalSums v w cfg else []))
    ∧ (∀ (cfg : config) (v w : Histogram Int),
        equalAggregations (some (AggData.histInt v)) (some (AggData.histInt w)) cfg =
          (if (equalHistograms v w cfg).length > 0
            then "Histogram not equal:" :: equalHistograms v w cfg else []))
    ∧ (∀ (cfg : config) (v w : Histogram Float64),
        equalAggregations (some (AggData.histFloat v)) (some (AggData.histFloat w)) cfg =
          (if (equalHistograms v w cfg).length > 0
            then "Histogram not equal:" :: equalHistograms v w cfg else []))
    ∧ (∀ (cfg : config) (v w : ExponentialHistogram Int),
        equalAggregations (some (AggData.expHistInt v)) (some (AggData.expHistInt w)) cfg =
          (if (equalExponentialHistograms v w cfg).length > 0
            then "ExponentialHistogram not equal:" :: equalExponentialHistograms v w cfg else []))
    ∧ (∀ (cfg : config) (v w : ExponentialHistogram Float64),
        equalAggregations (some (AggData.expHistFloat v)) (some (AggData.expHistFloat w)) cfg =
          (if (equalExponentialHistograms v w cfg).length > 0
            then "ExponentialHistogram not equal:" :: equalExponentialHistograms v w cfg
            else [])) := by
  refine ⟨fun _cfg0 => rfl, fun _cfgL _bv => rfl, fun _cfgR _av => rfl, ?_,
    fun _c1 _g1 _g2 => rfl, fun _c2 _g3 _g4 => rfl, fun _c3 _s1 _s2 => rfl,
    fun _c4 _s3 _s4 => rfl, fun _c5 _h1 _h2 => rfl, fun _c6 _h3 _h4 => rfl,
    fun _c7 _e1 _e2 => rfl, fun _c8 _e3 _e4 => rfl⟩
  intro cfg av bv h
  simp only [equalAggregations]
  rw [if_pos h]

/-- Witness for C2: a Gauge of int64 against a Sum of int64 with the same
data points yields exactly the type-mismatch reason. -/
theorem equalAggregations_dispatch_witness :
    equalAggregations (some (AggData.gaugeInt ⟨[]⟩))
        (some (AggData.sumInt ⟨[], Temporality.delta, false⟩)) ⟨false, false, false⟩ =
      ["Aggregation types not equal:\nexpected: "
        ++ rend (AggData.gaugeInt ⟨[]⟩).tyOf
        ++ "\nactual: " ++ rend (AggData.sumInt ⟨[], Temporality.delta, false⟩).tyOf] :=
  equalAggregations_dispatch.2.2.2.1 ⟨false, false, false⟩ (AggData.gaugeInt ⟨[]⟩)
    (AggData.sumInt ⟨[], Temporality.delta, false⟩) (by decide)

/-- C8 counterexample: the claim says bucket boundaries are compared under
every policy setting, but with ignoreValue set two histogram data points
that differ in their bucket boundaries compare equal. -/
theorem ignore_flags_counterexample :
    (⟨⟨[]⟩, 0, 0, 2, [⟨1⟩, ⟨2⟩], [1, 2], ⟨0, false⟩, ⟨0, false⟩, 7, []⟩ :
        HistogramDataPoint Int).bounds ≠
      (⟨⟨[]⟩, 0, 0, 2, [⟨3⟩], [1, 2], ⟨0, false⟩, ⟨0, false⟩, 7, []⟩ :
        HistogramDataPoint Int).bounds
    ∧ equalHistogramDataPoints
        (⟨⟨[]⟩, 0, 0, 2, [⟨1⟩, ⟨2⟩], [1, 2], ⟨0, false⟩, ⟨0, false⟩, 7, []⟩ :
          HistogramDataPoint Int)
        ⟨⟨[]⟩, 0, 0, 2, [⟨3⟩], [1, 2], ⟨0, false⟩, ⟨0, false⟩, 7, []⟩
        ⟨false, true, false⟩ = [] := by
  decide

/-- C8 (amended): with ignoreTimestamps set, data points differing only in
start or observation time compare equal, and with it unset such a
difference is detected; attribute sets, metric names and units,
temporality and monotonicity are compared under every policy; scale,
bucket offsets, bucket boundaries and bucket counts are compared exactly
when ignoreValues is unset — that flag suppresses them together with the
numeric payload. -/
theorem ignore_flags_semantics :
    (∀ (ν : Type) [DecidableEq ν] [GoRend ν] (cfg : config) (dp : DataPoint ν) (s t : TimeNano),
        cfg.ignoreTimestamp = true →
        equalDataPoints dp { dp with startTime := s, time := t } cfg = [])
    ∧ (∀ (ν : Type) [DecidableEq ν] [GoRend ν] (cfg : config) (dp : DataPoint ν)
        (s t : TimeNano), cfg.ignoreTimestamp = false →
        (dp.startTime ≠ s ∨ dp.time ≠ t) →
        equalDataPoints dp { dp with startTime := s, time := t } cfg ≠ [])
    ∧ (∀ (ν : Type) [DecidableEq ν] [GoRend ν] (cfg : config) (a b : DataPoint ν),
        a.attributes ≠ b.attributes → equalDataPoints a b cfg ≠ [])
    ∧ (∀ (cfg : config) (a b : Metrics), a.name ≠ b.name → equalMetrics a b cfg ≠ [])
    ∧ (∀ (cfg : config) (a b : Metrics), a.unit ≠ b.unit → equalMetrics a b cfg ≠ [])
    ∧ (∀ (ν : Type) [DecidableEq ν] [GoRend ν] (cfg : config) (a b : Sum ν),
        a.temporality ≠ b.temporality → equalSums a b cfg ≠ [])
    ∧ (∀ (ν : Type) [DecidableEq ν] [GoRend ν] (cfg : config) (a b : Sum ν),
        a.isMonotonic ≠ b.isMonotonic → equalSums a b cfg ≠ [])
    ∧ (∀ (ν : Type) [DecidableEq ν] [GoRend ν] (cfg : config) (a b : Histogram ν),
        a.temporality ≠ b.temporality → equalHistograms a b cfg ≠ [])
    ∧ (∀ (ν : Type) [DecidableEq ν] [GoRend ν] (cfg : config) (a b : ExponentialHistogram ν),
        a.temporality ≠ b.temporality → equalExponentialHistograms a b cfg ≠ [])
    ∧ (∀ (ν : Type) [DecidableEq ν] [GoRend ν] (cfg : config)
        (a b : ExponentialHistogramDataPoint ν), cfg.ignoreValue = false →
        a.scale ≠ b.scale → equalExponentialHistogramDataPoints a b cfg ≠ [])
    ∧ (∀ (ν : Type) [DecidableEq ν] [GoRend ν] (cfg : config)
        (a b : ExponentialHistogramDataPoint ν), cfg.ignoreValue = false →
        a.positiveBucket.offset ≠ b.positiveBucket.offset →
        equalExponentialHistogramDataPoints a b cfg ≠ [])
    ∧ (∀ (ν : Type) [DecidableEq ν] [GoRend ν] (cfg : config) (a b : HistogramDataPoint ν),
        cfg.ignoreValue = false → a.bounds ≠ b.bounds →
        equalHistogramDataPoints a b cfg ≠ [])
    ∧ (∀ (ν : Type) [DecidableEq ν] [GoRend ν] (cfg : config) (a b : HistogramDataPoint ν),
        cfg.ignoreValue = false → a.bucketCounts ≠ b.bucketCounts →
        equalHistogramDataPoints a b cfg ≠ [])
    ∧ (∀ (ν : Type) [DecidableEq ν] [GoRend ν] (cfg : config) (dp : HistogramDataPoint ν)
        (cnt : Nat) (bs : List Float64) (bc : List Nat) (mn mx : Extrema ν) (sm : ν),
        cfg.ignoreValue = true →
        equalHistogramDataPoints dp
          { dp with
              count := cnt
              bounds := bs
              bucketCounts := bc
              min := mn
              max := mx
              sum := sm } cfg = [])
    ∧ (∀ (ν : Type) [DecidableEq ν] [GoRend ν] (cfg : config)
        (dp : ExponentialHistogramDataPoint ν) (cnt : Nat) (mn mx : Extrema ν) (sm : ν)
        (sc : Int) (z : Nat) (pb nb : ExponentialBucket), cfg.ignoreValue = true →
        equalExponentialHistogramDataPoints dp
          { dp with
              count := cnt
              min := mn
              max := mx
              sum := sm
              scale := sc
              zeroCount := z
              positiveBucket := pb
              negativeBucket := nb } cfg = []) := by
  refine ⟨?_, ?_, ?_, ?_, ?_, ?_, ?_, ?_, ?_, ?_, ?_, ?_, ?_, ?_, ?_⟩
  · intro ν _ _ cfg dp s t hts
    rw [equalDataPoints_empty_iff]
    exact ⟨rfl, Or.inl hts, Or.inr rfl,
      Or.inr (diffSlices_empty_refl (fun e _ => exemplarPred_refl cfg e))⟩
  · intro ν _ _ cfg dp s t hts hne habs
    rw [equalDataPoints_empty_iff] at habs
    rcases habs.2.1 with h | ⟨hs, ht⟩
    · exact absurd h (by simp [hts])
    · rcases hne with hne | hne
      · exact hne hs
      · exact hne ht
  · intro ν _ _ cfg a b hne habs
    rw [equalDataPoints_empty_iff] at habs
    exact hne habs.1
  · intro cfg a b hne habs
    rw [equalMetrics_empty_iff] at habs
    exact hne habs.1
  · intro cfg a b hne habs
    rw [equalMetrics_empty_iff] at habs
    exact hne habs.2.2.1
  · intro ν _ _ cfg a b hne habs
    rw [equalSums_empty_iff] at habs
    exact hne habs.1
  · intro ν _ _ cfg a b hne habs
    rw [equalSums_empty_iff] at habs
    exact hne habs.2.1
  · intro ν _ _ cfg a b hne habs
    rw [equalHistograms_empty_iff] at habs
    exact hne habs.1
  · intro ν _ _ cfg a b hne habs
    rw [equalExponentialHistograms_empty_iff] at habs
    exact hne habs.1
  · intro ν _ _ cfg a b hv hne habs
    rw [equalExponentialHistogramDataPoints_empty_iff] at habs
    rcases habs.2.2.1 with h | h
    · exact absurd h (by simp [hv])
    · exact hne h.2.2.2.2.1
  · intro ν _ _ cfg a b hv hne habs
    rw [equalExponentialHistogramDataPoints_empty_iff] at habs
    rcases habs.2.2.1 with h | h
    · exact absurd h (by simp [hv])
    · exact hne h.2.2.2.2.2.2.1
  · intro ν _ _ cfg a b hv hne habs
    rw [equalHistogramDataPoints_empty_iff] at habs
    rcases habs.2.2.1 with h | h
    · exact absurd h (by simp [hv])
    · exact hne h.2.1
  · intro ν _ _ cfg a b hv hne habs
    rw [equalHistogramDataPoints_empty_iff] at habs
    rcases habs.2.2.1 with h | h
    · exact absurd h (by simp [hv])
    · exact hne h.2.2.1
  · intro ν _ _ cfg dp cnt bs bc mn mx sm hv
    rw [equalHistogramDataPoints_empty_iff]
    exact ⟨rfl, Or.inr ⟨rfl, rfl⟩, Or.inl hv,
      Or.inr (diffSlices_empty_refl (fun e _ => exemplarPred_refl cfg e))⟩
  · intro ν _ _ cfg dp cnt mn mx sm sc z pb nb hv
    rw [equalExponentialHistogramDataPoints_empty_iff]
    exact ⟨rfl, Or.inr ⟨rfl, rfl⟩, Or.inl hv,
      Or.inr (diffSlices_empty_refl (fun e _ => exemplarPred_refl cfg e))⟩

/-- Witness for the amended C8: a concrete data point differing only in
time compares equal under ignoreTimestamps and unequal without it. -/
theorem ignore_flags_semantics_witness :
    equalDataPoints (⟨⟨[]⟩, 0, 1, 5, []⟩ : DataPoint Int)
        { (⟨⟨[]⟩, 0, 1, 5, []⟩ : DataPoint Int) with startTime := 2, time := 3 }
        ⟨true, false, false⟩ = []
    ∧ equalDataPoints (⟨⟨[]⟩, 0, 1, 5, []⟩ : DataPoint Int)
        { (⟨⟨[]⟩, 0, 1, 5, []⟩ : DataPoint Int) with startTime := 2, time := 3 }
        ⟨false, false, false⟩ ≠ [] :=
  ⟨ignore_flags_semantics.1 Int ⟨true, false, false⟩ ⟨⟨[]⟩, 0, 1, 5, []⟩ 2 3 rfl,
    ignore_flags_semantics.2.1 Int ⟨false, false, false⟩ ⟨⟨[]⟩, 0, 1, 5, []⟩ 2 3 rfl
      (Or.inl (by decide))⟩

theorem equalKeyValueLoop_cons_known (x y : KeyValueX) (rest : List (KeyValueX × KeyValueX))
    (hx : x.value.vtype ≠ VType.invalid) :
    equalKeyValueLoop ((x, y) :: rest) =
      if x = y then equalKeyValueLoop rest else some false := by
  obtain ⟨xk, xv⟩ := x
  obtain ⟨yk, yv⟩ := y
  by_cases hk : xk = yk
  · subst hk
    rcases xv with _ | xv
    · exact absurd rfl hx
    · rcases yv with _ | yv
      · cases xv <;>
          simp [equalKeyValueLoop, ValueX.vtype, KeyValueX.mk.injEq]
      · cases xv <;> cases yv <;>
          simp [equalKeyValueLoop, ValueX.vtype, ValueX.asBool, ValueX.asInt64,
            ValueX.asFloat64, ValueX.asString, ValueX.asBoolSlice, ValueX.asInt64Slice,
            ValueX.asFloat64Slice, ValueX.asStringSlice, equalSlices_iff, KeyValueX.mk.injEq,
            ite_not] <;>
          (rename_i l1 l2
           by_cases hsl : l1 = l2
           · simp [hsl, (equalSlices_iff l2 l2).mpr rfl]
           · have hf : equalSlices l1 l2 = false := by
               rw [Bool.eq_false_iff, Ne, equalSlices_iff]
               exact hsl
             simp [hsl, hf])
  · simp [equalKeyValueLoop, hk, KeyValueX.mk.injEq]

theorem equalKeyValue_known (a b : List KeyValueX)
    (ha : ∀ kv ∈ a, kv.value.vtype ≠ VType.invalid) :
    equalKeyValue a b = some (decide (a = b)) := by
  induction a generalizing b with
  | nil =>
    cases b with
    | nil => rfl
    | cons y ys => simp [equalKeyValue]
  | cons x xs ih =>
    cases b with
    | nil => simp [equalKeyValue]
    | cons y ys =>
      by_cases hl : xs.length = ys.length
      · have hx : x.value.vtype ≠ VType.invalid := ha x (List.mem_cons_self x xs)
        have hxs : ∀ kv ∈ xs, kv.value.vtype ≠ VType.invalid :=
          fun kv hkv => ha kv (List.mem_cons_of_mem x hkv)
        have ih2 := ih ys hxs
        simp only [equalKeyValue, List.length_cons, ne_eq, List.zip_cons_cons] at ih2 ⊢
        rw [if_neg (by simp [hl])] at ih2
        rw [if_neg (by simp [hl])]
        rw [equalKeyValueLoop_cons_known x y _ hx]
        by_cases hxy : x = y
        · rw [if_pos hxy, ih2]
          simp [hxy]
        · rw [if_neg hxy]
          simp [hxy]
      · simp only [equalKeyValue, List.length_cons, ne_eq]
        rw [if_pos (by simpa using hl)]
        have hne : ¬(x :: xs = y :: ys) := by
          intro hc
          injection hc with h1 h2
          exact hl (by rw [h2])
        simp [hne]

/-- C9: on filtered-attribute lists whose values all carry one of the 8
known value kinds, the key/value list comparison completes without
panicking and decides order-sensitive element-wise equality; reaching a
value whose kind is outside the 8 known kinds halts that code path
(modelled as `none`). -/
theorem equalKeyValue_closed_kinds :
    (∀ (a b : List KeyValueX),
        (∀ kv ∈ a, kv.value.vtype ≠ VType.invalid) →
        (∀ kv ∈ b, kv.value.vtype ≠ VType.invalid) →
        equalKeyValue a b = some (decide (a = b)))
    ∧ equalKeyValue [⟨"k", none⟩] [⟨"k", none⟩] = none :=
  ⟨fun a b ha _ => equalKeyValue_known a b ha, by decide⟩

/-- Witness for C9: the comparison of two concrete known-kind lists
returns a value (no panic) and decides their equality. -/
theorem equalKeyValue_closed_kinds_witness :
    equalKeyValue [⟨"k", some (Value.boolValue true)⟩] [⟨"k", some (Value.boolValue true)⟩] =
      some (decide
        ([(⟨"k", some (Value.boolValue true)⟩ : KeyValueX)] =
          [⟨"k", some (Value.boolValue true)⟩])) :=
  equalKeyValue_closed_kinds.1 [⟨"k", some (Value.boolValue true)⟩]
    [⟨"k", some (Value.boolValue true)⟩] (by decide) (by decide)

theorem forall_enum_snd {β : Type} (l : List β) (Q : β → Prop) :
    (∀ p ∈ l.enum, Q p.2) ↔ (∀ x ∈ l, Q x) := by
  constructor
  · intro h x hx
    have hx2 : x ∈ l.enum.map Prod.snd := by
      rw [List.enum_map_snd]
      exact hx
    obtain ⟨p, hp, rfl⟩ := List.mem_map.mp hx2
    exact h p hp
  · intro h p hp
    apply h
    rw [← List.enum_map_snd l]
    exact List.mem_map_of_mem Prod.snd hp

theorem hasAttributesDataPoints_empty_iff {ν : Type} (dp : DataPoint ν)
    (attrs : List KeyValue) :
    hasAttributesDataPoints dp attrs = [] ↔
      ∀ kv ∈ attrs, dp.attributes.value kv.key = some kv.value := by
  rw [hasAttributesDataPoints]
  refine Iff.trans List.bind_eq_nil (ball_congr fun kv hkv => ?_)
  cases hv : dp.attributes.value kv.key with
  | none => simp [hv]
  | some val => by_cases h : val = kv.value <;> simp [hv, h]

theorem hasAttributesDataPoints_missing {ν : Type} (dp : DataPoint ν) (attrs : List KeyValue)
    (kv : KeyValue) (hkv : kv ∈ attrs) (hmiss : dp.attributes.value kv.key = none) :
    missingAttrStr kv.key ∈ hasAttributesDataPoints dp attrs := by
  rw [hasAttributesDataPoints]
  refine List.mem_bind.mpr ⟨kv, hkv, ?_⟩
  simp [hmiss]

theorem hasAttributesDataPoints_mismatch {ν : Type} (dp : DataPoint ν) (attrs : List KeyValue)
    (kv : KeyValue) (v : Value) (hkv : kv ∈ attrs) (hval : dp.attributes.value kv.key = some v)
    (hne : v ≠ kv.value) :
    notEqualStr kv.key kv.value.emit v.emit ∈ hasAttributesDataPoints dp attrs := by
  rw [hasAttributesDataPoints]
  refine List.mem_bind.mpr ⟨kv, hkv, ?_⟩
  simp [hval, hne]

theorem hasAttributesExemplars_empty_iff {ν : Type} (ex : Exemplar ν)
    (attrs : List KeyValue) :
    hasAttributesExemplars ex attrs = [] ↔
      ∀ kv ∈ attrs, (AttrSet.ofList ex.filteredAttributes).value kv.key = some kv.value := by
  rw [hasAttributesExemplars]
  refine Iff.trans List.bind_eq_nil (ball_congr fun kv hkv => ?_)
  cases hv : (AttrSet.ofList ex.filteredAttributes).value kv.key with
  | none => simp [hv]
  | some val => by_cases h : val = kv.value <;> simp [hv, h]

theorem hasAttributesExemplars_missing {ν : Type} (ex : Exemplar ν) (attrs : List KeyValue)
    (kv : KeyValue) (hkv : kv ∈ attrs)
    (hmiss : (AttrSet.ofList ex.filteredAttributes).value kv.key = none) :
    missingAttrStr kv.key ∈ hasAttributesExemplars ex attrs := by
  rw [hasAttributesExemplars]
  refine List.mem_bind.mpr ⟨kv, hkv, ?_⟩
  simp [hmiss]

theorem hasAttributesExemplars_mismatch {ν : Type} (ex : Exemplar ν) (attrs : List KeyValue)
    (kv : KeyValue) (v : Value) (hkv : kv ∈ attrs)
    (hval : (AttrSet.ofList ex.filteredAttributes).value kv.key = some v)
    (hne : v ≠ kv.value) :
    notEqualStr kv.key kv.value.emit v.emit ∈ hasAttributesExemplars ex attrs := by
  rw [hasAttributesExemplars]
  refine List.mem_bind.mpr ⟨kv, hkv, ?_⟩
  simp [hval, hne]

theorem hasAttributesHistogramDataPoints_empty_iff {ν : Type} (dp : HistogramDataPoint ν)
    (attrs : List KeyValue) :
    hasAttributesHistogramDataPoints dp attrs = [] ↔
      ∀ kv ∈ attrs, dp.attributes.value kv.key = some kv.value := by
  rw [hasAttributesHistogramDataPoints]
  refine Iff.trans List.bind_eq_nil (ball_congr fun kv hkv => ?_)
  cases hv : dp.attributes.value kv.key with
  | none => simp [hv]
  | some val => by_cases h : val = kv.value <;> simp [hv, h]

theorem hasAttributesExponentialHistogramDataPoints_empty_iff {ν : Type}
    (dp : ExponentialHistogramDataPoint ν) (attrs : List KeyValue) :
    hasAttributesExponentialHistogramDataPoints dp attrs = [] ↔
      ∀ kv ∈ attrs, dp.attributes.value kv.key = some kv.value := by
  rw [hasAttributesExponentialHistogramDataPoints]
  refine Iff.trans List.bind_eq_nil (ball_congr fun kv hkv => ?_)
  cases hv : dp.attributes.value kv.key with
  | none => simp [hv]
  | some val => by_cases h : val = kv.value <;> simp [hv, h]

theorem hasAttributesGauge_empty_iff {ν : Type} (g : Gauge ν) (attrs : List KeyValue) :
    hasAttributesGauge g attrs = [] ↔
      ∀ dp ∈ g.dataPoints, hasAttributesDataPoints dp attrs = [] := by
  rw [hasAttributesGauge]
  exact Iff.trans List.bind_eq_nil
    (Iff.trans (ball_congr fun p hp => wrapReasons_empty _ _) (forall_enum_snd g.dataPoints (fun dp => hasAttributesDataPoints dp attrs = [])))

theorem hasAttributesSum_empty_iff {ν : Type} (s : Sum ν) (attrs : List KeyValue) :
    hasAttributesSum s attrs = [] ↔
      ∀ dp ∈ s.dataPoints, hasAttributesDataPoints dp attrs = [] := by
  rw [hasAttributesSum]
  exact Iff.trans List.bind_eq_nil
    (Iff.trans (ball_congr fun p hp => wrapReasons_empty _ _) (forall_enum_snd s.dataPoints (fun dp => hasAttributesDataPoints dp attrs = [])))

theorem hasAttributesHistogram_empty_iff {ν : Type} (h : Histogram ν) (attrs : List KeyValue) :
    hasAttributesHistogram h attrs = [] ↔
      ∀ dp ∈ h.dataPoints, hasAttributesHistogramDataPoints dp attrs = [] := by
  rw [hasAttributesHistogram]
  exact Iff.trans List.bind_eq_nil
    (Iff.trans (ball_congr fun p hp => wrapReasons_empty _ _)
      (forall_enum_snd h.dataPoints (fun dp => hasAttributesHistogramDataPoints dp attrs = [])))

theorem hasAttributesExponentialHistogram_empty_iff {ν : Type} (h : ExponentialHistogram ν)
    (attrs : List KeyValue) :
    hasAttributesExponentialHistogram h attrs = [] ↔
      ∀ dp ∈ h.dataPoints, hasAttributesExponentialHistogramDataPoints dp attrs = [] := by
  rw [hasAttributesExponentialHistogram]
  exact Iff.trans List.bind_eq_nil
    (Iff.trans (ball_congr fun p hp => wrapReasons_empty _ _)
      (forall_enum_snd h.dataPoints
        (fun dp => hasAttributesExponentialHistogramDataPoints dp attrs = [])))

theorem hasAttributesMetrics_empty_iff (m : Metrics) (attrs : List KeyValue) :
    hasAttributesMetrics m attrs = [] ↔ hasAttributesAggregation m.data attrs = [] := by
  rw [hasAttributesMetrics]
  exact wrapReasons_empty _ _

theorem hasAttributesScopeMetrics_empty_iff (sm : ScopeMetrics) (attrs : List KeyValue) :
    hasAttributesScopeMetrics sm attrs = [] ↔
      ∀ m ∈ sm.metrics, hasAttributesMetrics m attrs = [] := by
  rw [hasAttributesScopeMetrics]
  exact Iff.trans List.bind_eq_nil
    (Iff.trans (ball_congr fun p hp => wrapReasons_empty _ _) (forall_enum_snd sm.metrics (fun m => hasAttributesMetrics m attrs = [])))

theorem hasAttributesResourceMetrics_empty_iff (rm : ResourceMetrics) (attrs : List KeyValue) :
    hasAttributesResourceMetrics rm attrs = [] ↔
      ∀ sm ∈ rm.scopeMetrics, hasAttributesScopeMetrics sm attrs = [] := by
  rw [hasAttributesResourceMetrics]
  exact Iff.trans List.bind_eq_nil
    (Iff.trans (ball_congr fun p hp => wrapReasons_empty _ _)
      (forall_enum_snd rm.scopeMetrics (fun sm => hasAttributesScopeMetrics sm attrs = [])))

/-- C4: the attribute-containment check verifies, at every data point of
every aggregation kind and at an exemplar's filtered-attribute list, that
each key of the wanted subset is present with the expected value: an
absent key contributes a "missing attribute key" reason, a
present-but-different value contributes a mismatch reason rendered via
the textual value encoding, and the traversal over a tree is empty
exactly when every reachable data point satisfies every wanted
attribute. -/
theorem hasAttributes_containment :
    (∀ (ν : Type) (dp : DataPoint ν) (attrs : List KeyValue),
        hasAttributesDataPoints dp attrs = [] ↔
          ∀ kv ∈ attrs, dp.attributes.value kv.key = some kv.value)
    ∧ (∀ (ν : Type) (dp : DataPoint ν) (attrs : List KeyValue) (kv : KeyValue),
        kv ∈ attrs → dp.attributes.value kv.key = none →
        missingAttrStr kv.key ∈ hasAttributesDataPoints dp attrs)
    ∧ (∀ (ν : Type) (dp : DataPoint ν) (attrs : List KeyValue) (kv : KeyValue) (v : Value),
        kv ∈ attrs → dp.attributes.value kv.key = some v → v ≠ kv.value →
        notEqualStr kv.key kv.value.emit v.emit ∈ hasAttributesDataPoints dp attrs)
    ∧ (∀ (ν : Type) (ex : Exemplar ν) (attrs : List KeyValue),
        hasAttributesExemplars ex attrs = [] ↔
          ∀ kv ∈ attrs, (AttrSet.ofList ex.filteredAttributes).value kv.key = some kv.value)
    ∧ (∀ (ν : Type) (ex : Exemplar ν) (attrs : List KeyValue) (kv : KeyValue),
        kv ∈ attrs → (AttrSet.ofList ex.filteredAttributes).value kv.key = none →
        missingAttrStr kv.key ∈ hasAttributesExemplars ex attrs)
    ∧ (∀ (ν : Type) (ex : Exemplar ν) (attrs : List KeyValue) (kv : KeyValue) (v : Value),
        kv ∈ attrs → (AttrSet.ofList ex.filteredAttributes).value kv.key = some v →
        v ≠ kv.value →
        notEqualStr kv.key kv.value.emit v.emit ∈ hasAttributesExemplars ex attrs)
    ∧ (∀ (g : Gauge Int) (attrs : List KeyValue),
        hasAttributesAggregation (some (AggData.gaugeInt g)) attrs = [] ↔
          ∀ dp ∈ g.dataPoints, hasAttributesDataPoints dp attrs = [])
    ∧ (∀ (g : Gauge Float64) (attrs : List KeyValue),
        hasAttributesAggregation (some (AggData.gaugeFloat g)) attrs = [] ↔
          ∀ dp ∈ g.dataPoints, hasAttributesDataPoints dp attrs = [])
    ∧ (∀ (s : Sum Int) (attrs : List KeyValue),
        hasAttributesAggregation (some (AggData.sumInt s)) attrs = [] ↔
          ∀ dp ∈ s.dataPoints, hasAttributesDataPoints dp attrs = [])
    ∧ (∀ (s : Sum Float64) (attrs : List KeyValue),
        hasAttributesAggregation (some (AggData.sumFloat s)) attrs = [] ↔
          ∀ dp ∈ s.dataPoints, hasAttributesDataPoints dp attrs = [])
    ∧ (∀ (h : Histogram Int) (attrs : List KeyValue),
        hasAttributesAggregation (some (AggData.histInt h)) attrs = [] ↔
          ∀ dp ∈ h.dataPoints, hasAttributesHistogramDataPoints dp attrs = [])
    ∧ (∀ (h : Histogram Float64) (attrs : List KeyValue),
        hasAttributesAggregation (some (AggData.histFloat h)) attrs = [] ↔
          ∀ dp ∈ h.dataPoints, hasAttributesHistogramDataPoints dp attrs = [])
    ∧ (∀ (h : ExponentialHistogram Int) (attrs : List KeyValue),
        hasAttributesAggregation (some (AggData.expHistInt h)) attrs = [] ↔
          ∀ dp ∈ h.dataPoints, hasAttributesExponentialHistogramDataPoints dp attrs = [])
    ∧ (∀ (h : ExponentialHistogram Float64) (attrs : List KeyValue),
        hasAttributesAggregation (some (AggData.expHistFloat h)) attrs = [] ↔
          ∀ dp ∈ h.dataPoints, hasAttributesExponentialHistogramDataPoints dp attrs = [])
    ∧ (∀ (ν : Type) (dp : HistogramDataPoint ν) (attrs : List KeyValue),
        hasAttributesHistogramDataPoints dp attrs = [] ↔
          ∀ kv ∈ attrs, dp.attributes.value kv.key = some kv.value)
    ∧ (∀ (ν : Type) (dp : ExponentialHistogramDataPoint ν) (attrs : List KeyValue),
        hasAttributesExponentialHistogramDataPoints dp attrs = [] ↔
          ∀ kv ∈ attrs, dp.attributes.value kv.key = some kv.value)
    ∧ (∀ (m : Metrics) (attrs : List KeyValue),
        hasAttributesMetrics m attrs = [] ↔ hasAttributesAggregation m.data attrs = [])
    ∧ (∀ (sm : ScopeMetrics) (attrs : List KeyValue),
        hasAttributesScopeMetrics sm attrs = [] ↔
          ∀ m ∈ sm.metrics, hasAttributesMetrics m attrs = [])
    ∧ (∀ (rm : ResourceMetrics) (attrs : List KeyValue),
        hasAttributesResourceMetrics rm attrs = [] ↔
          ∀ sm ∈ rm.scopeMetrics, hasAttributesScopeMetrics sm attrs = []) :=
  ⟨fun _ dp attrs => hasAttributesDataPoints_empty_iff dp attrs,
    fun _ dp attrs kv hkv hmiss => hasAttributesDataPoints_missing dp attrs kv hkv hmiss,
    fun _ dp attrs kv v hkv hval hne =>
      hasAttributesDataPoints_mismatch dp attrs kv v hkv hval hne,
    fun _ ex attrs => hasAttributesExemplars_empty_iff ex attrs,
    fun _ ex attrs kv hkv hmiss => hasAttributesExemplars_missing ex attrs kv hkv hmiss,
    fun _ ex attrs kv v hkv hval hne =>
      hasAttributesExemplars_mismatch ex attrs kv v hkv hval hne,
    fun g attrs => hasAttributesGauge_empty_iff g attrs,
    fun g attrs => hasAttributesGauge_empty_iff g attrs,
    fun s attrs => hasAttributesSum_empty_iff s attrs,
    fun s attrs => hasAttributesSum_empty_iff s attrs,
    fun h attrs => hasAttributesHistogram_empty_iff h attrs,
    fun h attrs => hasAttributesHistogram_empty_iff h attrs,
    fun h attrs => hasAttributesExponentialHistogram_empty_iff h attrs,
    fun h attrs => hasAttributesExponentialHistogram_empty_iff h attrs,
    fun _ dp attrs => hasAttributesHistogramDataPoints_empty_iff dp attrs,
    fun _ dp attrs => hasAttributesExponentialHistogramDataPoints_empty_iff dp attrs,
    fun m attrs => hasAttributesMetrics_empty_iff m attrs,
    fun sm attrs => hasAttributesScopeMetrics_empty_iff sm attrs,
    fun rm attrs => hasAttributesResourceMetrics_empty_iff rm attrs⟩

/-- Witness for C4: the missing-key and value-mismatch reasons appear for
a concrete data point. -/
theorem hasAttributes_containment_witness :
    missingAttrStr "region" ∈
      hasAttributesDataPoints
        (⟨⟨[⟨"method", Value.stringValue "POST"⟩]⟩, 0, 0, 1, []⟩ : DataPoint Int)
        [⟨"region", Value.stringValue "us"⟩]
    ∧ notEqualStr "method" (Value.stringValue "GET").emit (Value.stringValue "POST").emit ∈
        hasAttributesDataPoints
          (⟨⟨[⟨"method", Value.stringValue "POST"⟩]⟩, 0, 0, 1, []⟩ : DataPoint Int)
          [⟨"method", Value.stringValue "GET"⟩] :=
  ⟨hasAttributes_containment.2.1 Int
      ⟨⟨[⟨"method", Value.stringValue "POST"⟩]⟩, 0, 0, 1, []⟩
      [⟨"region", Value.stringValue "us"⟩] ⟨"region", Value.stringValue "us"⟩
      (by decide) (by decide),
    hasAttributes_containment.2.2.1 Int
      ⟨⟨[⟨"method", Value.stringValue "POST"⟩]⟩, 0, 0, 1, []⟩
      [⟨"method", Value.stringValue "GET"⟩] ⟨"method", Value.stringValue "GET"⟩
      (Value.stringValue "POST") (by decide) (by decide) (by decide)⟩

end Otel
